import Mathlib

/-!
# Dashboard enhancer (`assets/dashboard.js`): preference store, applicator,
notifications, chart augmentation and shortcut dispatch

A shallow embedding of the stateful methods of `DashboardEnhancer`.  The page is
an explicit state record, methods are state transformers that return
`Except JSError _` where the JavaScript can throw.

Platform services used by the source are modelled from their standards:

* JavaScript strings are lists of UTF-16 code units (`JSString`);
* `JSON.parse` is a recursive-descent parser for the JSON grammar;
* `JSON.stringify` is modelled for the one shape the source serialises, the
  settings object literal built in `saveSettings`;
* `classList.add` / `classList.remove` act on an ordered token list;
* `setTimeout` is a virtual clock counted in milliseconds, a timer firing in
  the millisecond at which it falls due.
-/

namespace Dashboard

/-! ## JavaScript strings -/

/-- A JavaScript string: its sequence of UTF-16 code units. -/
abbrev JSString := List Nat

/-- UTF-16 encoding of one Unicode scalar value. -/
def utf16 (c : Char) : List Nat :=
  if c.toNat < 65536 then [c.toNat]
  else [55296 + (c.toNat - 65536) / 1024, 56320 + (c.toNat - 65536) % 1024]

/-- The JavaScript string denoted by a source literal. -/
def js (s : String) : JSString :=
  s.toList.foldr (fun c acc => utf16 c ++ acc) []

/-! ## JSON values -/

/-- A JSON number literal, kept exactly: `(-1)^negative * mantissa * 10^exponent`. -/
structure JNumber where
  negative : Bool
  mantissa : Nat
  exponent : Int
  deriving DecidableEq, Repr

/-- The values `JSON.parse` can produce.  An object is its list of own
properties in creation order, with distinct keys; the modelled code reads
properties by name and never enumerates an object with integer-like keys, so
the place JavaScript gives such keys in an enumeration is not modelled. -/
inductive JValue where
  | null : JValue
  | bool : Bool → JValue
  | num : JNumber → JValue
  | str : JSString → JValue
  | arr : List JValue → JValue
  | obj : List (JSString × JValue) → JValue
  deriving Repr

/-- The errors the modelled code can throw. -/
inductive JSError where
  | syntaxError : JSError
  | typeError : JSError
  deriving DecidableEq, Repr

mutual
/-- Decide equality of JSON values. -/
def JValue.decEq : (a b : JValue) → Decidable (a = b)
  | .null, .null => isTrue rfl
  | .bool x, .bool y => if h : x = y then isTrue (by rw [h]) else isFalse (by intro e; cases e; exact h rfl)
  | .num x, .num y => if h : x = y then isTrue (by rw [h]) else isFalse (by intro e; cases e; exact h rfl)
  | .str x, .str y => if h : x = y then isTrue (by rw [h]) else isFalse (by intro e; cases e; exact h rfl)
  | .arr xs, .arr ys =>
    match JValue.decEqList xs ys with
    | isTrue h => isTrue (by rw [h])
    | isFalse h => isFalse (by intro e; cases e; exact h rfl)
  | .obj xs, .obj ys =>
    match JValue.decEqProps xs ys with
    | isTrue h => isTrue (by rw [h])
    | isFalse h => isFalse (by intro e; cases e; exact h rfl)
  | .null, .bool _ | .null, .num _ | .null, .str _ | .null, .arr _ | .null, .obj _
  | .bool _, .null | .bool _, .num _ | .bool _, .str _ | .bool _, .arr _ | .bool _, .obj _
  | .num _, .null | .num _, .bool _ | .num _, .str _ | .num _, .arr _ | .num _, .obj _
  | .str _, .null | .str _, .bool _ | .str _, .num _ | .str _, .arr _ | .str _, .obj _
  | .arr _, .null | .arr _, .bool _ | .arr _, .num _ | .arr _, .str _ | .arr _, .obj _
  | .obj _, .null | .obj _, .bool _ | .obj _, .num _ | .obj _, .str _ | .obj _, .arr _ =>
    isFalse (by intro e; cases e)
/-- Decide equality of lists of JSON values. -/
def JValue.decEqList : (as bs : List JValue) → Decidable (as = bs)
  | [], [] => isTrue rfl
  | [], _ :: _ | _ :: _, [] => isFalse (by intro e; cases e)
  | a :: as, b :: bs =>
    match JValue.decEq a b, JValue.decEqList as bs with
    | isTrue h1, isTrue h2 => isTrue (by rw [h1, h2])
    | isFalse h, _ => isFalse (by intro e; cases e; exact h rfl)
    | _, isFalse h => isFalse (by intro e; cases e; exact h rfl)
/-- Decide equality of property lists. -/
def JValue.decEqProps : (as bs : List (JSString × JValue)) → Decidable (as = bs)
  | [], [] => isTrue rfl
  | [], _ :: _ | _ :: _, [] => isFalse (by intro e; cases e)
  | (k, a) :: as, (l, b) :: bs =>
    if hk : k = l then
      match JValue.decEq a b, JValue.decEqProps as bs with
      | isTrue h1, isTrue h2 => isTrue (by rw [hk, h1, h2])
      | isFalse h, _ => isFalse (by intro e; cases e; exact h rfl)
      | _, isFalse h => isFalse (by intro e; cases e; exact h rfl)
    else isFalse (by intro e; cases e; exact hk rfl)
end
instance : DecidableEq JValue := JValue.decEq

/-- Decide equality of results. -/
instance [DecidableEq ε] [DecidableEq α] : DecidableEq (Except ε α)
  | .ok a, .ok b => if h : a = b then isTrue (by rw [h]) else isFalse (by intro e; cases e; exact h rfl)
  | .error a, .error b => if h : a = b then isTrue (by rw [h]) else isFalse (by intro e; cases e; exact h rfl)
  | .ok _, .error _ | .error _, .ok _ => isFalse (by intro e; cases e)

/-- Property lookup in a property list (`undefined` is `none`). -/
def lookup (k : JSString) : List (JSString × JValue) → Option JValue
  | [] => none
  | (k', v) :: rest => if k' = k then some v else lookup k rest

/-- CreateDataProperty on a property list: an existing key keeps its place and
takes the new value, a new key is appended. -/
def setProp (k : JSString) (v : JValue) : List (JSString × JValue) → List (JSString × JValue)
  | [] => [(k, v)]
  | (k', v') :: rest => if k' = k then (k, v) :: rest else (k', v') :: setProp k v rest

/-- The keys of a property list, in order. -/
def keys (ps : List (JSString × JValue)) : List JSString := ps.map Prod.fst

/-! ## `JSON.parse` -/

/-- JSON whitespace: space, tab, line feed, carriage return. -/
def isWs (c : Nat) : Bool := c = 32 ∨ c = 9 ∨ c = 10 ∨ c = 13

/-- Drop leading JSON whitespace. -/
def skipWs : List Nat → List Nat
  | [] => []
  | c :: cs => if isWs c then skipWs cs else c :: cs

/-- Value of a hexadecimal digit, either case. -/
def hexVal (c : Nat) : Option Nat :=
  if 48 ≤ c ∧ c ≤ 57 then some (c - 48)
  else if 97 ≤ c ∧ c ≤ 102 then some (c - 87)
  else if 65 ≤ c ∧ c ≤ 70 then some (c - 55)
  else none

/-- The code unit written by the four hex digits of a `\u` escape. -/
def hex4 (a b c d : Nat) : Option Nat :=
  match hexVal a, hexVal b, hexVal c, hexVal d with
  | some x, some y, some z, some w => some (((x * 16 + y) * 16 + z) * 16 + w)
  | _, _, _, _ => none

/-- The character denoted by a single-character escape. -/
def escapeChar (c : Nat) : Option Nat :=
  if c = 34 then some 34          -- quotation mark
  else if c = 92 then some 92     -- reverse solidus
  else if c = 47 then some 47     -- solidus
  else if c = 98 then some 8      -- b: backspace
  else if c = 102 then some 12    -- f: form feed
  else if c = 110 then some 10    -- n: line feed
  else if c = 114 then some 13    -- r: carriage return
  else if c = 116 then some 9     -- t: tab
  else none

/-- Characters of a JSON string after the opening quote, up to and including
the closing quote: the decoded string and the remaining input. -/
def parseStringBody : List Nat → Option (JSString × List Nat)
  | [] => none
  | c :: rest =>
    if c = 34 then some ([], rest)
    else if c = 92 then
      match rest with
      | [] => none
      | e :: rest1 =>
        if e = 117 then
          match rest1 with
          | a :: b :: x :: d :: rest2 =>
            match hex4 a b x d with
            | none => none
            | some u => (parseStringBody rest2).map (fun r => (u :: r.1, r.2))
          | _ => none
        else
          match escapeChar e with
          | none => none
          | some u => (parseStringBody rest1).map (fun r => (u :: r.1, r.2))
    else if c < 32 then none
    else (parseStringBody rest).map (fun r => (c :: r.1, r.2))

/-- A decimal digit. -/
def isDigit (c : Nat) : Bool := 48 ≤ c ∧ c ≤ 57

/-- The longest run of leading decimal digits (as digit values) and the rest. -/
def takeDigits : List Nat → List Nat × List Nat
  | [] => ([], [])
  | c :: cs =>
    if isDigit c then ((c - 48) :: (takeDigits cs).1, (takeDigits cs).2)
    else ([], c :: cs)

/-- Value of a digit sequence, most significant first. -/
def digitsVal (ds : List Nat) : Nat := ds.foldl (fun a d => a * 10 + d) 0

/-- Optional fraction part of a number: its digits (at least one after a point). -/
def parseFrac : List Nat → Option (List Nat × List Nat)
  | 46 :: rest =>
    match takeDigits rest with
    | ([], _) => none
    | (ds, rest1) => some (ds, rest1)
  | cs => some ([], cs)

/-- Digits of an exponent after its sign. -/
def parseExpDigits (negative : Bool) (cs : List Nat) : Option (Int × List Nat) :=
  match takeDigits cs with
  | ([], _) => none
  | (ds, rest) => some (if negative then - (digitsVal ds : Int) else (digitsVal ds : Int), rest)

/-- Optional exponent part of a number. -/
def parseExp : List Nat → Option (Int × List Nat)
  | [] => some (0, [])
  | e :: rest =>
    if e = 101 ∨ e = 69 then
      match rest with
      | 45 :: rest1 => parseExpDigits true rest1
      | 43 :: rest1 => parseExpDigits false rest1
      | _ => parseExpDigits false rest
    else some (0, e :: rest)

/-- Integer part of a number: a single zero, or a digit run not starting with zero. -/
def parseInt : List Nat → Option (List Nat × List Nat)
  | [] => none
  | c :: rest =>
    if c = 48 then some ([0], rest)
    else if isDigit c then some (takeDigits (c :: rest))
    else none

/-- A JSON number after its optional minus sign. -/
def parseUnsigned (negative : Bool) (cs : List Nat) : Option (JNumber × List Nat) :=
  match parseInt cs with
  | none => none
  | some (ints, rest) =>
    match parseFrac rest with
    | none => none
    | some (fracs, rest1) =>
      match parseExp rest1 with
      | none => none
      | some (e, rest2) =>
        some (⟨negative, digitsVal (ints ++ fracs), e - (fracs.length : Int)⟩, rest2)

/-- A JSON number. -/
def parseNumber : List Nat → Option (JNumber × List Nat)
  | 45 :: rest => parseUnsigned true rest
  | cs => parseUnsigned false cs

/-- Elements of a non-empty array after the opening bracket, up to and
including the closing bracket; `pv` parses one value. -/
def parseElems (pv : List Nat → Option (JValue × List Nat)) :
    Nat → List Nat → Option (List JValue × List Nat)
  | 0, _ => none
  | n + 1, cs =>
    match pv cs with
    | none => none
    | some (v, rest) =>
      match skipWs rest with
      | 44 :: rest1 => (parseElems pv n rest1).map (fun r => (v :: r.1, r.2))
      | 93 :: rest1 => some ([v], rest1)
      | _ => none

/-- Members of a non-empty object after the opening brace, up to and including
the closing brace, in source order; `pv` parses one value. -/
def parseMembers (pv : List Nat → Option (JValue × List Nat)) :
    Nat → List Nat → Option (List (JSString × JValue) × List Nat)
  | 0, _ => none
  | n + 1, cs =>
    match skipWs cs with
    | 34 :: rest =>
      match parseStringBody rest with
      | none => none
      | some (k, rest1) =>
        match skipWs rest1 with
        | 58 :: rest2 =>
          match pv rest2 with
          | none => none
          | some (v, rest3) =>
            match skipWs rest3 with
            | 44 :: rest4 => (parseMembers pv n rest4).map (fun r => ((k, v) :: r.1, r.2))
            | 125 :: rest4 => some ([(k, v)], rest4)
            | _ => none
        | _ => none
    | _ => none

/-- The object built from members in source order: a repeated key keeps its
first position and takes its last value. -/
def mkObject (ms : List (JSString × JValue)) : List (JSString × JValue) :=
  ms.foldl (fun o m => setProp m.1 m.2 o) []

/-- One JSON value with leading whitespace; the fuel bounds the nesting depth. -/
def parseValue : Nat → List Nat → Option (JValue × List Nat)
  | 0, _ => none
  | fuel + 1, cs =>
    match skipWs cs with
    | [] => none
    | c :: rest =>
      if c = 123 then
        match skipWs rest with
        | 125 :: rest1 => some (JValue.obj [], rest1)
        | _ => (parseMembers (parseValue fuel) (rest.length + 1) rest).map
                 (fun r => (JValue.obj (mkObject r.1), r.2))
      else if c = 91 then
        match skipWs rest with
        | 93 :: rest1 => some (JValue.arr [], rest1)
        | _ => (parseElems (parseValue fuel) (rest.length + 1) rest).map
                 (fun r => (JValue.arr r.1, r.2))
      else if c = 34 then (parseStringBody rest).map (fun r => (JValue.str r.1, r.2))
      else if c = 116 then
        match rest with
        | 114 :: 117 :: 101 :: rest1 => some (JValue.bool true, rest1)
        | _ => none
      else if c = 102 then
        match rest with
        | 97 :: 108 :: 115 :: 101 :: rest1 => some (JValue.bool false, rest1)
        | _ => none
      else if c = 110 then
        match rest with
        | 117 :: 108 :: 108 :: rest1 => some (JValue.null, rest1)
        | _ => none
      else (parseNumber (c :: rest)).map (fun r => (JValue.num r.1, r.2))

/-- The call `JSON.parse(text)`: a whole-text parse, throwing `SyntaxError` on
anything that is not one JSON value surrounded by whitespace.  Nesting depth
never exceeds the length of the text, which is the fuel given. -/
def JSON_parse (text : JSString) : Except JSError JValue :=
  match parseValue (text.length + 1) text with
  | none => .error .syntaxError
  | some (v, rest) => if skipWs rest = [] then .ok v else .error .syntaxError

/-! ## `JSON.stringify` of an object of primitives -/

/-- A property value that is `null`, a boolean or a string: the values held by
the object literal that `saveSettings` serialises. -/
inductive Prim where
  | null : Prim
  | bool : Bool → Prim
  | str : JSString → Prim
  deriving DecidableEq, Repr

/-- The JSON value of a primitive. -/
def Prim.toJValue : Prim → JValue
  | .null => JValue.null
  | .bool b => JValue.bool b
  | .str s => JValue.str s

/-- A lowercase hexadecimal digit. -/
def hexDigit (n : Nat) : Nat := if n < 10 then 48 + n else 87 + n

/-- UnicodeEscape: a code unit written with four lowercase hex digits. -/
def unicodeEscape (c : Nat) : List Nat :=
  [92, 117, hexDigit (c / 4096 % 16), hexDigit (c / 256 % 16),
    hexDigit (c / 16 % 16), hexDigit (c % 16)]

/-- A leading (high) surrogate code unit. -/
def isHighSurrogate (c : Nat) : Bool := 55296 ≤ c ∧ c ≤ 56319

/-- A trailing (low) surrogate code unit. -/
def isLowSurrogate (c : Nat) : Bool := 56320 ≤ c ∧ c ≤ 57343

/-- QuoteJSONString without the surrounding quotes: the short escapes, a
unicode escape for the other control characters and for unpaired surrogates,
and every other code point as it is. -/
def quoteBody : List Nat → List Nat
  | [] => []
  | c :: rest =>
    if c = 8 then 92 :: 98 :: quoteBody rest
    else if c = 9 then 92 :: 116 :: quoteBody rest
    else if c = 10 then 92 :: 110 :: quoteBody rest
    else if c = 12 then 92 :: 102 :: quoteBody rest
    else if c = 13 then 92 :: 114 :: quoteBody rest
    else if c = 34 then 92 :: 34 :: quoteBody rest
    else if c = 92 then 92 :: 92 :: quoteBody rest
    else if c < 32 then unicodeEscape c ++ quoteBody rest
    else if isHighSurrogate c then
      match rest with
      | [] => unicodeEscape c
      | d :: rest1 =>
        if isLowSurrogate d then c :: d :: quoteBody rest1
        else unicodeEscape c ++ quoteBody (d :: rest1)
    else if isLowSurrogate c then unicodeEscape c ++ quoteBody rest
    else c :: quoteBody rest

/-- QuoteJSONString. -/
def quoteJSONString (s : JSString) : JSString := 34 :: (quoteBody s ++ [34])

/-- SerializeJSONProperty of a primitive. -/
def Prim.serialize : Prim → JSString
  | .null => js "null"
  | .bool true => js "true"
  | .bool false => js "false"
  | .str s => quoteJSONString s

/-- The members of an object, comma separated, with no gap (no indent). -/
def serializeMembers : List (JSString × Prim) → JSString
  | [] => []
  | [(k, v)] => quoteJSONString k ++ 58 :: v.serialize
  | (k, v) :: m :: ms =>
    quoteJSONString k ++ 58 :: (v.serialize ++ 44 :: serializeMembers (m :: ms))

/-- The call `JSON.stringify(o)` for an object `o` whose own properties, in
creation order, are `ps`. -/
def JSON_stringify (ps : List (JSString × Prim)) : JSString :=
  123 :: (serializeMembers ps ++ [125])

/-! ## Truthiness, property reads, spread -/

/-- Whether the Number value of a literal is zero: the literal is rounded to
the nearest double, so it is zero when its magnitude is at most `2^-1075`. -/
def JNumber.isZero (n : JNumber) : Bool :=
  n.mantissa = 0 ∨ (n.exponent < 0 ∧ n.mantissa * 2 ^ 1075 ≤ 10 ^ (-n.exponent).toNat)

/-- ToBoolean of the result of a property read (`none` is `undefined`). -/
def truthy : Option JValue → Bool
  | none => false
  | some .null => false
  | some (.bool b) => b
  | some (.num n) => !n.isZero
  | some (.str s) => !s.isEmpty
  | some (.arr _) => true
  | some (.obj _) => true

/-- The read `settings.name` for a name that no built-in prototype defines
(as `darkMode`, `animations` and `autoRefresh`): a `TypeError` on `null`, the
own property of an object, `undefined` on every other value. -/
def getField (settings : JValue) (name : JSString) : Except JSError (Option JValue) :=
  match settings with
  | .null => .error .typeError
  | .obj ps => .ok (lookup name ps)
  | _ => .ok none

/-- The decimal name of an array index. -/
def indexKey (i : Nat) : JSString := (Nat.toDigits 10 i).map Char.toNat

/-- Index-named properties of a sequence, counting from `i`. -/
def indexed (f : α → JValue) : Nat → List α → List (JSString × JValue)
  | _, [] => []
  | i, x :: xs => (indexKey i, f x) :: indexed f (i + 1) xs

/-- The own enumerable properties that a spread `...v` copies: the properties
of an object, the elements of an array and the code units of a string under
their indices, nothing for `null`, booleans and numbers. -/
def ownProps : JValue → List (JSString × JValue)
  | .obj ps => ps
  | .arr xs => indexed id 0 xs
  | .str s => indexed (fun c => JValue.str [c]) 0 s
  | _ => []

/-- The object literal `{ ...target, ...source }` given the properties of
`target`. -/
def spread (target : List (JSString × JValue)) (source : JValue) : List (JSString × JValue) :=
  (ownProps source).foldl (fun o m => setProp m.1 m.2 o) target

/-! ## The page -/

/-- The seven settings: the state of the seven form controls of the settings
dialog, and the shape of the record that is persisted. -/
structure Settings where
  darkMode : Bool
  animations : Bool
  autoRefresh : Bool
  chartTheme : JSString
  showGridlines : Bool
  browserNotifications : Bool
  soundAlerts : Bool
  deriving DecidableEq, Repr

/-- The object literal with the seven properties in source order. -/
def Settings.toProps (r : Settings) : List (JSString × Prim) :=
  [(js "darkMode", .bool r.darkMode),
   (js "animations", .bool r.animations),
   (js "autoRefresh", .bool r.autoRefresh),
   (js "chartTheme", .str r.chartTheme),
   (js "showGridlines", .bool r.showGridlines),
   (js "browserNotifications", .bool r.browserNotifications),
   (js "soundAlerts", .bool r.soundAlerts)]

/-- The settings object as a JavaScript object. -/
def Settings.toObject (r : Settings) : List (JSString × JValue) :=
  r.toProps.map (fun m => (m.1, m.2.toJValue))

/-- The `defaultSettings` literal of `getCurrentSettings`. -/
def defaultSettings : Settings :=
  { darkMode := false
    animations := true
    autoRefresh := true
    chartTheme := js "plotly_white"
    showGridlines := true
    browserNotifications := false
    soundAlerts := false }

/-- The names of the seven settings fields. -/
def fieldNames : List JSString :=
  [js "darkMode", js "animations", js "autoRefresh", js "chartTheme", js "showGridlines",
   js "browserNotifications", js "soundAlerts"]

/-- A notification element in the notification container. -/
structure Notification where
  node : Nat
  className : String
  background : String
  animation : String
  textContent : String
  deriving DecidableEq, Repr

/-- The two callbacks that `showNotification` hands to `setTimeout`. -/
inductive Callback where
  | fadeOut : Nat → Callback
  | remove : Nat → Callback
  deriving DecidableEq, Repr

/-- A pending timer. -/
structure Timer where
  due : Nat
  callback : Callback
  deriving DecidableEq, Repr

/-- The part of the page that the modelled methods read and write. -/
structure Page where
  /-- The value `localStorage.getItem` returns for the settings key: `none` is `null`. -/
  storage : Option JSString
  /-- The tokens of `document.body.classList`. -/
  bodyClasses : List String
  /-- Lines written with `console.log`. -/
  console : List String
  /-- The open settings dialogs in document order, each with its seven controls. -/
  settingsModals : List Settings
  /-- The children of the notification container, in document order. -/
  region : List Notification
  /-- Pending timers in the order they were set. -/
  timers : List Timer
  /-- The clock, in milliseconds. -/
  now : Nat
  /-- The identity given to the next created element. -/
  nextNode : Nat
  deriving DecidableEq, Repr

/-! ## Preference store and applicator

A method that can throw returns `Except JSError _`.  In every modelled method
an exception is raised before the first write, so an error leaves the page as
it was. -/

/-- The test `if (savedSettings)` on the result of `getItem`: `null` and the
empty string are falsy. -/
def isSaved : Option JSString → Bool
  | none => false
  | some s => !s.isEmpty

/-- The method `getCurrentSettings`: the defaults, overlaid with the parsed
stored value when the slot holds a non-empty string. -/
def getCurrentSettings (p : Page) : Except JSError (List (JSString × JValue)) :=
  let savedSettings := p.storage
  match savedSettings with
  | none => .ok defaultSettings.toObject
  | some text =>
    if isSaved (some text) then
      match JSON_parse text with
      | .error e => .error e
      | .ok parsed => .ok (spread defaultSettings.toObject parsed)
    else .ok defaultSettings.toObject

/-- The call `classList.add(token)`. -/
def classAdd (token : String) (classes : List String) : List String :=
  if token ∈ classes then classes else classes ++ [token]

/-- The call `classList.remove(token)`. -/
def classRemove (token : String) (classes : List String) : List String :=
  classes.filter (fun t => t ≠ token)

/-- The dark-mode branch of `applySettings`. -/
def applyDarkMode (darkMode : Option JValue) (p : Page) : Page :=
  if truthy darkMode then { p with bodyClasses := classAdd "dark-mode" p.bodyClasses }
  else { p with bodyClasses := classRemove "dark-mode" p.bodyClasses }

/-- The animations branch of `applySettings`. -/
def applyAnimations (animations : Option JValue) (p : Page) : Page :=
  if !truthy animations then { p with bodyClasses := classAdd "no-animations" p.bodyClasses }
  else { p with bodyClasses := classRemove "no-animations" p.bodyClasses }

/-- The auto-refresh branch of `applySettings`. -/
def applyAutoRefresh (autoRefresh : Option JValue) (p : Page) : Page :=
  if truthy autoRefresh then { p with console := p.console ++ ["Auto refresh enabled"] }
  else p

/-- The method `applySettings`. -/
def applySettings (settings : JValue) (p : Page) : Except JSError Page :=
  match getField settings (js "darkMode") with
  | .error e => .error e
  | .ok darkMode =>
    let p1 := applyDarkMode darkMode p
    match getField settings (js "animations") with
    | .error e => .error e
    | .ok animations =>
      let p2 := applyAnimations animations p1
      match getField settings (js "autoRefresh") with
      | .error e => .error e
      | .ok autoRefresh => .ok (applyAutoRefresh autoRefresh p2)

/-- The method `loadSettings`, run once from `init` on page load. -/
def loadSettings (p : Page) : Except JSError Page :=
  let savedSettings := p.storage
  match savedSettings with
  | none => .ok p
  | some text =>
    if isSaved (some text) then
      match JSON_parse text with
      | .error e => .error e
      | .ok settings => applySettings settings p
    else .ok p

/-! ## Notifications and timers -/

/-- The method `showNotification`: append one element to the container and set
its 3000 ms timer. -/
def showNotification (message : String) (type : String) (p : Page) : Page :=
  let notification : Notification :=
    { node := p.nextNode
      className := "notification notification-" ++ type
      background :=
        if type = "success" then "#28a745" else if type = "error" then "#dc3545" else "#17a2b8"
      animation := "slideInDown 0.3s ease"
      textContent := message }
  { p with
    region := p.region ++ [notification]
    timers := p.timers ++ [{ due := p.now + 3000, callback := .fadeOut notification.node }]
    nextNode := p.nextNode + 1 }

/-- The method `saveSettings`: read the seven controls of the open settings
dialog, store their JSON text, apply them, close the dialog and notify.
With no dialog open the first `getElementById` is `null` and the read throws. -/
def saveSettings (p : Page) : Except JSError Page :=
  match p.settingsModals with
  | [] => .error .typeError
  | settings :: others =>
    let p1 := { p with storage := some (JSON_stringify settings.toProps) }
    match applySettings (.obj settings.toObject) p1 with
    | .error e => .error e
    | .ok p2 =>
      let p3 := { p2 with settingsModals := others }
      .ok (showNotification "Settings saved successfully!" "success" p3)

/-- The assignment `notification.style.animation = 'fadeOut 0.3s ease'`. -/
def fadingOut (x : Notification) : Notification :=
  { x with animation := "fadeOut 0.3s ease" }

/-- Run one timer callback.  The outer callback starts the exit animation of
its notification and sets the 300 ms timer; the inner one detaches it. -/
def fire (p : Page) : Callback → Page
  | .fadeOut n =>
    { p with
      region := p.region.map (fun x => if x.node = n then fadingOut x else x)
      timers := p.timers ++ [{ due := p.now + 300, callback := .remove n }] }
  | .remove n => { p with region := p.region.filter (fun x => x.node ≠ n) }

/-- One millisecond passes: the timers then due run in the order they were set. -/
def tick (p : Page) : Page :=
  let now := p.now + 1
  let due := p.timers.filter (fun t => t.due ≤ now)
  let pending := p.timers.filter (fun t => ¬ t.due ≤ now)
  due.foldl (fun q t => fire q t.callback) { p with now := now, timers := pending }

/-- The page after `ms` milliseconds. -/
def advance : Nat → Page → Page
  | 0, p => p
  | ms + 1, p => advance ms (tick p)

/-- Post a batch of notifications, one `showNotification` call each, in order,
with no time passing in between. -/
def postAll : List (String × String) → Page → Page
  | [], p => p
  | (message, type) :: rest, p => postAll rest (showNotification message type p)

/-- A step of a session: a `showNotification` call, or time passing. -/
inductive Op where
  | post : String → String → Op
  | wait : Nat → Op
  deriving DecidableEq, Repr

/-- Run the steps of a session in order. -/
def run : List Op → Page → Page
  | [], p => p
  | .post message type :: ops, p => run ops (showNotification message type p)
  | .wait ms :: ops, p => run ops (advance ms p)

/-- The time that passes during the steps of a session. -/
def waited : List Op → Nat
  | [] => 0
  | .post _ _ :: ops => waited ops
  | .wait ms :: ops => ms + waited ops

/-- Whether the element with identity `n` is in the notification container. -/
def inRegion (n : Nat) (p : Page) : Bool := p.region.any (fun x => x.node = n)

/-- The due times of the pending fade-out timers of element `n`. -/
def fadeDues (n : Nat) (p : Page) : List Nat :=
  (p.timers.filter (fun t => t.callback = .fadeOut n)).map Timer.due

/-- The due times of the pending removal timers of element `n`. -/
def removeDues (n : Nat) (p : Page) : List Nat :=
  (p.timers.filter (fun t => t.callback = .remove n)).map Timer.due

/-- What the page holds about one notification element: whether it is in the
container, its pending timers, and the clock. -/
structure Life where
  present : Bool
  fades : List Nat
  removes : List Nat
  now : Nat
  deriving DecidableEq, Repr

/-- The life of element `n` on a page. -/
def life (n : Nat) (p : Page) : Life :=
  { present := inRegion n p, fades := fadeDues n p, removes := removeDues n p, now := p.now }

/-- One millisecond in the life of one element: a due removal timer detaches
it, a due fade-out timer is replaced by a removal timer 300 ms later. -/
def Life.tick (l : Life) : Life :=
  { present := l.present && !(l.removes.any (fun d => d ≤ l.now + 1))
    fades := l.fades.filter (fun d => ¬ d ≤ l.now + 1)
    removes := l.removes.filter (fun d => ¬ d ≤ l.now + 1) ++
      (l.fades.filter (fun d => d ≤ l.now + 1)).map (fun _ => l.now + 1 + 300)
    now := l.now + 1 }

/-- The element a timer callback acts on. -/
def Callback.node : Callback → Nat
  | .fadeOut n => n
  | .remove n => n

/-- No pending timer acts on an element identity that is not yet given out. -/
def Fresh (p : Page) : Prop := ∀ t ∈ p.timers, t.callback.node < p.nextNode

/-- The timers set while a list of due timers runs at clock `now`. -/
def spawned (now : Nat) : List Timer → List Timer
  | [] => []
  | t :: ts =>
    match t.callback with
    | .fadeOut n => { due := now + 300, callback := .remove n } :: spawned now ts
    | .remove _ => spawned now ts

/-- A page on which every notification in the container has just been
inserted: it is there, its fade-out timer is 3000 ms away, and it has no
removal timer. -/
def JustPosted (q : Page) : Prop :=
  ∀ x ∈ q.region, life x.node q = ⟨true, [q.now + 3000], [], q.now⟩

/-! ## Chart augmentation -/

/-- The inline handlers of the toolbar buttons. -/
inductive Handler where
  | downloadChart : String → Handler
  | zoomChart : String → Handler
  deriving DecidableEq, Repr

/-- A toolbar button: its handler, title and icon class. -/
structure Button where
  onclick : Handler
  title : String
  icon : String
  deriving DecidableEq, Repr

/-- The markup inside a child element of a chart. -/
inductive Content where
  | buttons : List Button → Content
  | status : String → String → Content
  | other : String → Content
  deriving DecidableEq, Repr

/-- A child element of a chart node. -/
structure Element where
  className : String
  cssText : String
  content : Content
  deriving DecidableEq, Repr

/-- A chart node (`div.plotly-graph-div`). -/
structure ChartDiv where
  id : String
  position : String
  children : List Element
  deriving DecidableEq, Repr

/-- The method `addDataIndicator`. -/
def addDataIndicator (chartDiv : ChartDiv) : ChartDiv :=
  let indicator : Element :=
    { className := "data-indicator"
      cssText := "position: absolute; top: 10px; right: 10px; " ++
        "background: rgba(255, 255, 255, 0.9); padding: 5px 10px; " ++
        "border-radius: 15px; font-size: 0.8rem; z-index: 1000;"
      content := .status "status-indicator status-online" "Live Data" }
  { chartDiv with children := chartDiv.children ++ [indicator] }

/-- The method `enhanceChart`. -/
def enhanceChart (chartDiv : ChartDiv) : ChartDiv :=
  let chartDiv1 := { chartDiv with position := "relative" }
  let toolbar : Element :=
    { className := "chart-toolbar"
      cssText := ""
      content := .buttons
        [{ onclick := .downloadChart chartDiv.id, title := "Download Chart", icon := "fas fa-camera" },
         { onclick := .zoomChart chartDiv.id, title := "Zoom", icon := "fas fa-search-plus" }] }
  let chartDiv2 := { chartDiv1 with children := chartDiv1.children ++ [toolbar] }
  addDataIndicator chartDiv2

/-- The number of child elements of a chart with a given class. -/
def countClass (className : String) (chartDiv : ChartDiv) : Nat :=
  (chartDiv.children.filter (fun e => e.className = className)).length

/-! ## Keyboard shortcuts -/

/-- The fields of a `keydown` event that the handler reads. -/
structure KeyEvent where
  ctrlKey : Bool
  metaKey : Bool
  key : String
  deriving DecidableEq, Repr

/-- What the `keydown` handler does, in order. -/
inductive Effect where
  | preventDefault : Effect
  | refreshData : Effect
  | exportData : Effect
  | toggleFullscreen : Effect
  deriving DecidableEq, Repr

/-- The `keydown` listener installed by `setupKeyboardShortcuts`: the calls it
makes for one event. -/
def onKeydown (e : KeyEvent) : List Effect :=
  if e.ctrlKey || e.metaKey then
    if e.key = "r" then [.preventDefault, .refreshData]
    else if e.key = "e" then [.preventDefault, .exportData]
    else if e.key = "f" then [.preventDefault, .toggleFullscreen]
    else []
  else []

/-! ## Property lists -/

theorem lookup_setProp (k k1 : JSString) (v : JValue) (o : List (JSString × JValue)) :
    lookup k (setProp k1 v o) = if k1 = k then some v else lookup k o := by
  induction o with
  | nil => simp [setProp, lookup]
  | cons m rest ih =>
    obtain ⟨k2, v2⟩ := m
    by_cases h21 : k2 = k1
    · subst h21
      by_cases h : k2 = k <;> simp [setProp, lookup, h]
    · by_cases h : k1 = k
      · subst h
        simp [setProp, lookup, h21, ih]
      · by_cases h2 : k2 = k
        · subst h2
          simp [setProp, lookup, h21, h]
        · simp [setProp, lookup, h21, h, h2, ih]

theorem keys_setProp_of_mem (k : JSString) (v : JValue) (o : List (JSString × JValue))
    (h : k ∈ keys o) : keys (setProp k v o) = keys o := by
  induction o with
  | nil => simp [keys] at h
  | cons m rest ih =>
    obtain ⟨k2, v2⟩ := m
    by_cases h2 : k2 = k
    · simp [setProp, keys, h2]
    · have hr : k ∈ keys rest := by
        simp only [keys, List.map_cons, List.mem_cons] at h
        rcases h with h | h
        · exact absurd h.symm h2
        · exact h
      have := ih hr
      simp only [keys] at this
      simp [setProp, keys, h2, this]

theorem keys_setProp_of_not_mem (k : JSString) (v : JValue) (o : List (JSString × JValue))
    (h : k ∉ keys o) : keys (setProp k v o) = keys o ++ [k] := by
  induction o with
  | nil => simp [setProp, keys]
  | cons m rest ih =>
    obtain ⟨k2, v2⟩ := m
    simp only [keys, List.map_cons, List.mem_cons, not_or] at h
    have h2 : ¬ k2 = k := fun e => h.1 e.symm
    have := ih h.2
    simp only [keys] at this
    simp [setProp, keys, h2, this]

theorem nodup_keys_setProp (k : JSString) (v : JValue) (o : List (JSString × JValue))
    (h : (keys o).Nodup) : (keys (setProp k v o)).Nodup := by
  by_cases hk : k ∈ keys o
  · rw [keys_setProp_of_mem k v o hk]; exact h
  · rw [keys_setProp_of_not_mem k v o hk]
    exact List.Nodup.append h (List.nodup_singleton k) (by simpa using hk)

theorem nodup_keys_foldl (ms o : List (JSString × JValue)) (h : (keys o).Nodup) :
    (keys (ms.foldl (fun o m => setProp m.1 m.2 o) o)).Nodup := by
  induction ms generalizing o with
  | nil => simpa using h
  | cons m rest ih => exact ih _ (nodup_keys_setProp m.1 m.2 o h)

theorem nodup_keys_mkObject (ms : List (JSString × JValue)) : (keys (mkObject ms)).Nodup :=
  nodup_keys_foldl ms [] (by simp [keys])

theorem lookup_eq_none_of_not_mem (k : JSString) (o : List (JSString × JValue))
    (h : k ∉ keys o) : lookup k o = none := by
  induction o with
  | nil => rfl
  | cons m rest ih =>
    obtain ⟨k2, v2⟩ := m
    simp only [keys, List.map_cons, List.mem_cons, not_or] at h
    have h2 : ¬ k2 = k := fun e => h.1 e.symm
    simp only [lookup, h2, if_false]
    exact ih h.2

theorem lookup_foldl_setProp (k : JSString) (ms o : List (JSString × JValue))
    (h : (keys ms).Nodup) :
    lookup k (ms.foldl (fun o m => setProp m.1 m.2 o) o) =
      match lookup k ms with
      | some v => some v
      | none => lookup k o := by
  induction ms generalizing o with
  | nil => simp [lookup]
  | cons m rest ih =>
    obtain ⟨k2, v2⟩ := m
    simp only [keys, List.map_cons, List.nodup_cons] at h
    rw [List.foldl_cons, ih _ h.2, lookup_setProp]
    by_cases h2 : k2 = k
    · subst h2
      have : lookup k2 rest = none := lookup_eq_none_of_not_mem k2 rest h.1
      simp [lookup, this]
    · simp [lookup, h2]

theorem keys_foldl_setProp_of_subset (ms o : List (JSString × JValue))
    (h : ∀ k ∈ keys ms, k ∈ keys o) :
    keys (ms.foldl (fun o m => setProp m.1 m.2 o) o) = keys o := by
  induction ms generalizing o with
  | nil => rfl
  | cons m rest ih =>
    have hm : m.1 ∈ keys o := h m.1 (by simp [keys])
    have hk := keys_setProp_of_mem m.1 m.2 o hm
    rw [List.foldl_cons, ih, hk]
    intro k hkr
    rw [hk]
    exact h k (by simp only [keys, List.map_cons, List.mem_cons]; right; simpa [keys] using hkr)

theorem parseValue_obj_nodup (fuel : Nat) (cs rest : List Nat) (ps : List (JSString × JValue))
    (h : parseValue fuel cs = some (JValue.obj ps, rest)) : (keys ps).Nodup := by
  cases fuel with
  | zero => simp [parseValue] at h
  | succ fuel =>
    unfold parseValue at h
    split at h
    · simp at h
    · split at h
      · split at h
        · simp only [Option.some.injEq, Prod.mk.injEq, JValue.obj.injEq] at h
          rw [← h.1]; simp [keys]
        · simp only [Option.map_eq_some', Prod.mk.injEq, JValue.obj.injEq] at h
          obtain ⟨r, _, hr, _⟩ := h
          rw [← hr]
          exact nodup_keys_mkObject r.1
      · repeat' split at h
        all_goals simp at h

theorem JSON_parse_obj_nodup (text : JSString) (ps : List (JSString × JValue))
    (h : JSON_parse text = .ok (JValue.obj ps)) : (keys ps).Nodup := by
  unfold JSON_parse at h
  split at h
  · simp at h
  · rename_i v rest hv
    split at h
    · simp only [Except.ok.injEq] at h
      subst h
      exact parseValue_obj_nodup _ _ _ _ hv
    · simp at h

theorem JSON_parse_nil : JSON_parse [] = .error .syntaxError := by decide

/-! ## Preference store -/

theorem isSaved_of_parse_ok (text : JSString) (v : JValue) (h : JSON_parse text = .ok v) :
    isSaved (some text) = true := by
  cases text with
  | nil => rw [JSON_parse_nil] at h; cases h
  | cons c cs => rfl

theorem lookup_default_isSome (k : JSString) (hk : k ∈ fieldNames) :
    (lookup k defaultSettings.toObject).isSome = true := by
  simp only [fieldNames, List.mem_cons, List.mem_singleton, List.not_mem_nil, or_false] at hk
  rcases hk with h | h | h | h | h | h | h <;> subst h <;> decide

/-- C1: when the slot holds the JSON text of an object whose keys are among the
seven settings fields, `getCurrentSettings` returns an object with exactly the
seven fields, each populated, holding the persisted value where the persisted
object has the field and the default value where it has not. -/
theorem getCurrentSettings_partial_record (p : Page) (text : JSString)
    (ps : List (JSString × JValue)) (hslot : p.storage = some text)
    (hparse : JSON_parse text = .ok (JValue.obj ps))
    (hsub : ∀ k ∈ keys ps, k ∈ fieldNames) :
    ∃ r, getCurrentSettings p = .ok r ∧ keys r = fieldNames ∧
      ∀ k ∈ fieldNames, (lookup k r).isSome = true ∧
        (∀ v, lookup k ps = some v → lookup k r = some v) ∧
        (lookup k ps = none → lookup k r = lookup k defaultSettings.toObject) := by
  have hnd := JSON_parse_obj_nodup text ps hparse
  have hsaved := isSaved_of_parse_ok text _ hparse
  refine ⟨spread defaultSettings.toObject (JValue.obj ps), ?_, ?_, ?_⟩
  · simp only [getCurrentSettings, hslot, hsaved, hparse, if_true]
  · exact keys_foldl_setProp_of_subset ps defaultSettings.toObject hsub
  · intro k hk
    have hl : lookup k (spread defaultSettings.toObject (JValue.obj ps)) =
        match lookup k ps with
        | some v => some v
        | none => lookup k defaultSettings.toObject :=
      lookup_foldl_setProp k ps defaultSettings.toObject hnd
    have hd := lookup_default_isSome k hk
    refine ⟨?_, ?_, ?_⟩
    · rw [hl]
      cases hps : lookup k ps with
      | none => simpa using hd
      | some v => simp
    · intro v hv
      rw [hl, hv]
    · intro hv
      rw [hl, hv]

/-- C1, at a stored object that sets `darkMode` alone. -/
theorem getCurrentSettings_partial_record_witness :
    ∃ r, getCurrentSettings ⟨some (js "\x7b\"darkMode\":true\x7d"), [], [], [], [], [], 0, 0⟩ = .ok r ∧
      keys r = fieldNames ∧
      ∀ k ∈ fieldNames, (lookup k r).isSome = true ∧
        (∀ v, lookup k [(js "darkMode", JValue.bool true)] = some v → lookup k r = some v) ∧
        (lookup k [(js "darkMode", JValue.bool true)] = none →
          lookup k r = lookup k defaultSettings.toObject) :=
  getCurrentSettings_partial_record ⟨some (js "\x7b\"darkMode\":true\x7d"), [], [], [], [], [], 0, 0⟩
    (js "\x7b\"darkMode\":true\x7d") [(js "darkMode", JValue.bool true)] rfl (by decide) (by decide)

/-- C3, refuted as stated: with the unparseable text `{bad` in the slot,
`getCurrentSettings` and `loadSettings` both raise the `SyntaxError` of
`JSON.parse` instead of falling back to the defaults. -/
theorem unparseable_slot_raises :
    JSON_parse (js "\x7bbad") = .error .syntaxError ∧
    getCurrentSettings ⟨some (js "\x7bbad"), [], [], [], [], [], 0, 0⟩ ≠
      getCurrentSettings ⟨none, [], [], [], [], [], 0, 0⟩ ∧
    getCurrentSettings ⟨some (js "\x7bbad"), [], [], [], [], [], 0, 0⟩ = .error .syntaxError ∧
    loadSettings ⟨some (js "\x7bbad"), [], [], [], [], [], 0, 0⟩ = .error .syntaxError := by
  decide

/-- C3, amended: for a stored text that `JSON.parse` rejects, the empty text is
treated as an absent slot (`getCurrentSettings` returns the defaults and
`loadSettings` leaves the page as it is), and every other text makes both
`getCurrentSettings` and `loadSettings` raise the error of `JSON.parse`. -/
theorem unparseable_slot (p : Page) (text : JSString) (e : JSError)
    (hslot : p.storage = some text) (hbad : JSON_parse text = .error e) :
    (text = [] → getCurrentSettings p = .ok defaultSettings.toObject ∧ loadSettings p = .ok p) ∧
    (text ≠ [] → getCurrentSettings p = .error e ∧ loadSettings p = .error e) := by
  constructor
  · intro h
    subst h
    simp [getCurrentSettings, loadSettings, hslot, isSaved]
  · intro h
    have hs : isSaved (some text) = true := by
      cases text with
      | nil => exact absurd rfl h
      | cons c cs => rfl
    simp [getCurrentSettings, loadSettings, hslot, hs, hbad]

/-- C3 amended, at the text `{bad`. -/
theorem unparseable_slot_witness :
    (js "\x7bbad" = [] →
      getCurrentSettings ⟨some (js "\x7bbad"), [], [], [], [], [], 0, 0⟩ = .ok defaultSettings.toObject ∧
      loadSettings ⟨some (js "\x7bbad"), [], [], [], [], [], 0, 0⟩ =
        .ok ⟨some (js "\x7bbad"), [], [], [], [], [], 0, 0⟩) ∧
    (js "\x7bbad" ≠ [] →
      getCurrentSettings ⟨some (js "\x7bbad"), [], [], [], [], [], 0, 0⟩ = .error .syntaxError ∧
      loadSettings ⟨some (js "\x7bbad"), [], [], [], [], [], 0, 0⟩ = .error .syntaxError) :=
  unparseable_slot ⟨some (js "\x7bbad"), [], [], [], [], [], 0, 0⟩ (js "\x7bbad") .syntaxError rfl
    (by decide)

/-- C10, refuted as stated: with nothing stored, the record returned has
`chartTheme` equal to `plotly_white`, so it is not the record whose
`chartTheme` is `light`. -/
theorem default_load_is_not_light :
    getCurrentSettings ⟨none, [], [], [], [], [], 0, 0⟩ ≠
      .ok (Settings.toObject
        { darkMode := false, animations := true, autoRefresh := true, chartTheme := js "light",
          showGridlines := true, browserNotifications := false, soundAlerts := false }) := by
  decide

/-- C10, amended: with nothing stored, `getCurrentSettings` returns exactly
the record with `darkMode` false, `animations` true, `autoRefresh` true,
`chartTheme` `plotly_white`, `showGridlines` true, `browserNotifications` false
and `soundAlerts` false. -/
theorem default_load (p : Page) :
    getCurrentSettings { p with storage := none } =
      .ok [(js "darkMode", JValue.bool false), (js "animations", JValue.bool true),
           (js "autoRefresh", JValue.bool true), (js "chartTheme", JValue.str (js "plotly_white")),
           (js "showGridlines", JValue.bool true), (js "browserNotifications", JValue.bool false),
           (js "soundAlerts", JValue.bool false)] := by
  rfl

/-! ## `JSON.parse` after `JSON.stringify` -/

theorem parseStringBody_quote (tail : List Nat) :
    parseStringBody (34 :: tail) = some ([], tail) := by
  unfold parseStringBody; simp

theorem parseStringBody_plain (c : Nat) (h34 : c ≠ 34) (h92 : c ≠ 92) (h32 : ¬ c < 32)
    (tail : List Nat) :
    parseStringBody (c :: tail) = (parseStringBody tail).map (fun r => (c :: r.1, r.2)) := by
  conv => lhs; unfold parseStringBody
  simp [h34, h92, h32]

theorem parseStringBody_escape (e u : Nat) (h : e ≠ 117) (hu : escapeChar e = some u)
    (tail : List Nat) :
    parseStringBody (92 :: e :: tail) =
      (parseStringBody tail).map (fun r => (u :: r.1, r.2)) := by
  conv => lhs; unfold parseStringBody
  simp [h, hu]

theorem parseStringBody_hex (a b c d u : Nat) (hu : hex4 a b c d = some u) (tail : List Nat) :
    parseStringBody (92 :: 117 :: a :: b :: c :: d :: tail) =
      (parseStringBody tail).map (fun r => (u :: r.1, r.2)) := by
  conv => lhs; unfold parseStringBody
  simp [hu]


theorem hexVal_hexDigit (d : Nat) (h : d < 16) : hexVal (hexDigit d) = some d := by
  interval_cases d <;> rfl

theorem parseStringBody_unicodeEscape (c : Nat) (h : c < 65536) (tail : List Nat) :
    parseStringBody (unicodeEscape c ++ tail) =
      (parseStringBody tail).map (fun r => (c :: r.1, r.2)) := by
  have h1 := hexVal_hexDigit (c / 4096 % 16) (Nat.mod_lt _ (by decide))
  have h2 := hexVal_hexDigit (c / 256 % 16) (Nat.mod_lt _ (by decide))
  have h3 := hexVal_hexDigit (c / 16 % 16) (Nat.mod_lt _ (by decide))
  have h4 := hexVal_hexDigit (c % 16) (Nat.mod_lt _ (by decide))
  have hv : ((c / 4096 % 16 * 16 + c / 256 % 16) * 16 + c / 16 % 16) * 16 + c % 16 = c := by
    omega
  have hx : hex4 (hexDigit (c / 4096 % 16)) (hexDigit (c / 256 % 16)) (hexDigit (c / 16 % 16))
      (hexDigit (c % 16)) = some c := by
    simp only [hex4, h1, h2, h3, h4, hv]
  exact parseStringBody_hex _ _ _ _ c hx tail

theorem quoteBody_cons (c : Nat) (rest : List Nat) :
    quoteBody (c :: rest) =
      if c = 8 then 92 :: 98 :: quoteBody rest
      else if c = 9 then 92 :: 116 :: quoteBody rest
      else if c = 10 then 92 :: 110 :: quoteBody rest
      else if c = 12 then 92 :: 102 :: quoteBody rest
      else if c = 13 then 92 :: 114 :: quoteBody rest
      else if c = 34 then 92 :: 34 :: quoteBody rest
      else if c = 92 then 92 :: 92 :: quoteBody rest
      else if c < 32 then unicodeEscape c ++ quoteBody rest
      else if isHighSurrogate c then
        match rest with
        | [] => unicodeEscape c
        | d :: rest1 =>
          if isLowSurrogate d then c :: d :: quoteBody rest1
          else unicodeEscape c ++ quoteBody (d :: rest1)
      else if isLowSurrogate c then unicodeEscape c ++ quoteBody rest
      else c :: quoteBody rest := by
  conv => lhs; unfold quoteBody

theorem parseStringBody_quoteBody_aux (n : Nat) :
    ∀ (s tail : List Nat), s.length ≤ n →
      parseStringBody (quoteBody s ++ 34 :: tail) = some (s, tail) := by
  induction n with
  | zero =>
    intro s tail hs
    have : s = [] := List.length_eq_zero.mp (Nat.le_zero.mp hs)
    subst this
    exact parseStringBody_quote tail
  | succ n ih =>
    intro s tail hs
    cases s with
    | nil => exact parseStringBody_quote tail
    | cons c rest =>
      have hrest : rest.length ≤ n := by simpa using hs
      have ihr := ih rest tail hrest
      rw [quoteBody_cons]
      by_cases h8 : c = 8
      · rw [if_pos h8]
        subst h8
        simp only [List.cons_append]
        rw [parseStringBody_escape 98 8 (by decide) (by decide), ihr]
        rfl
      rw [if_neg h8]
      by_cases h9 : c = 9
      · rw [if_pos h9]
        subst h9
        simp only [List.cons_append]
        rw [parseStringBody_escape 116 9 (by decide) (by decide), ihr]
        rfl
      rw [if_neg h9]
      by_cases h10 : c = 10
      · rw [if_pos h10]
        subst h10
        simp only [List.cons_append]
        rw [parseStringBody_escape 110 10 (by decide) (by decide), ihr]
        rfl
      rw [if_neg h10]
      by_cases h12 : c = 12
      · rw [if_pos h12]
        subst h12
        simp only [List.cons_append]
        rw [parseStringBody_escape 102 12 (by decide) (by decide), ihr]
        rfl
      rw [if_neg h12]
      by_cases h13 : c = 13
      · rw [if_pos h13]
        subst h13
        simp only [List.cons_append]
        rw [parseStringBody_escape 114 13 (by decide) (by decide), ihr]
        rfl
      rw [if_neg h13]
      by_cases h34 : c = 34
      · rw [if_pos h34]
        subst h34
        simp only [List.cons_append]
        rw [parseStringBody_escape 34 34 (by decide) (by decide), ihr]
        rfl
      rw [if_neg h34]
      by_cases h92 : c = 92
      · rw [if_pos h92]
        subst h92
        simp only [List.cons_append]
        rw [parseStringBody_escape 92 92 (by decide) (by decide), ihr]
        rfl
      rw [if_neg h92]
      split_ifs with h32 hhi hlo
      · rw [List.append_assoc, parseStringBody_unicodeEscape c (by omega), ihr]
        rfl
      · have hc : c < 65536 := by
          simp only [isHighSurrogate, decide_eq_true_eq] at hhi
          omega
        cases rest with
        | nil =>
          rw [parseStringBody_unicodeEscape c hc, parseStringBody_quote]
          rfl
        | cons d rest1 =>
          simp only
          split_ifs with hd
          · have hd2 : rest1.length ≤ n := by
              simp only [List.length_cons] at hrest
              omega
            simp only [isLowSurrogate, decide_eq_true_eq] at hd
            simp only [List.cons_append]
            rw [parseStringBody_plain c h34 h92 h32,
              parseStringBody_plain d (by omega) (by omega) (by omega), ih rest1 tail hd2]
            rfl
          · rw [List.append_assoc, parseStringBody_unicodeEscape c hc, ihr]
            rfl
      · have hc : c < 65536 := by
          simp only [isLowSurrogate, decide_eq_true_eq] at hlo
          omega
        rw [List.append_assoc, parseStringBody_unicodeEscape c hc, ihr]
        rfl
      · simp only [List.cons_append]
        rw [parseStringBody_plain c h34 h92 h32, ihr]
        rfl

theorem parseStringBody_quoteBody (s tail : List Nat) :
    parseStringBody (quoteBody s ++ 34 :: tail) = some (s, tail) :=
  parseStringBody_quoteBody_aux s.length s tail (Nat.le_refl _)

theorem skipWs_cons (c : Nat) (cs : List Nat) (h : isWs c = false) :
    skipWs (c :: cs) = c :: cs := by
  simp [skipWs, h]

theorem parseValue_succ (fuel : Nat) (cs : List Nat) :
    parseValue (fuel + 1) cs =
      match skipWs cs with
      | [] => none
      | c :: rest =>
        if c = 123 then
          match skipWs rest with
          | 125 :: rest1 => some (JValue.obj [], rest1)
          | _ => (parseMembers (parseValue fuel) (rest.length + 1) rest).map
                   (fun r => (JValue.obj (mkObject r.1), r.2))
        else if c = 91 then
          match skipWs rest with
          | 93 :: rest1 => some (JValue.arr [], rest1)
          | _ => (parseElems (parseValue fuel) (rest.length + 1) rest).map
                   (fun r => (JValue.arr r.1, r.2))
        else if c = 34 then (parseStringBody rest).map (fun r => (JValue.str r.1, r.2))
        else if c = 116 then
          match rest with
          | 114 :: 117 :: 101 :: rest1 => some (JValue.bool true, rest1)
          | _ => none
        else if c = 102 then
          match rest with
          | 97 :: 108 :: 115 :: 101 :: rest1 => some (JValue.bool false, rest1)
          | _ => none
        else if c = 110 then
          match rest with
          | 117 :: 108 :: 108 :: rest1 => some (JValue.null, rest1)
          | _ => none
        else (parseNumber (c :: rest)).map (fun r => (JValue.num r.1, r.2)) := by
  conv => lhs; unfold parseValue

theorem parseValue_serialize (fuel : Nat) (v : Prim) (tail : List Nat) :
    parseValue (fuel + 1) (v.serialize ++ tail) = some (v.toJValue, tail) := by
  rw [parseValue_succ]
  cases v with
  | null =>
    have : (Prim.null).serialize ++ tail = 110 :: 117 :: 108 :: 108 :: tail := rfl
    rw [this, skipWs_cons _ _ (by decide)]
    rfl
  | bool b =>
    cases b with
    | true =>
      have : (Prim.bool true).serialize ++ tail = 116 :: 114 :: 117 :: 101 :: tail := rfl
      rw [this, skipWs_cons _ _ (by decide)]
      rfl
    | false =>
      have : (Prim.bool false).serialize ++ tail = 102 :: 97 :: 108 :: 115 :: 101 :: tail := rfl
      rw [this, skipWs_cons _ _ (by decide)]
      rfl
  | str s =>
    have : (Prim.str s).serialize ++ tail = 34 :: (quoteBody s ++ 34 :: tail) := by
      simp [Prim.serialize, quoteJSONString]
    rw [this, skipWs_cons _ _ (by decide)]
    simp only [show ¬ (34 = 123) by decide, show ¬ (34 = 91) by decide, if_false, if_true]
    rw [parseStringBody_quoteBody]
    rfl

theorem parseMembers_succ (pv : List Nat → Option (JValue × List Nat)) (n : Nat)
    (cs : List Nat) :
    parseMembers pv (n + 1) cs =
      match skipWs cs with
      | 34 :: rest =>
        match parseStringBody rest with
        | none => none
        | some (k, rest1) =>
          match skipWs rest1 with
          | 58 :: rest2 =>
            match pv rest2 with
            | none => none
            | some (v, rest3) =>
              match skipWs rest3 with
              | 44 :: rest4 => (parseMembers pv n rest4).map (fun r => ((k, v) :: r.1, r.2))
              | 125 :: rest4 => some ([(k, v)], rest4)
              | _ => none
          | _ => none
      | _ => none := by
  conv => lhs; unfold parseMembers

/-- One serialised member followed by `next`: the key and value are read back
and the parse continues at `next`. -/
theorem parseMembers_member (fuel n : Nat) (k : JSString) (v : Prim) (next : List Nat) :
    parseMembers (parseValue (fuel + 1)) (n + 1)
        (quoteJSONString k ++ 58 :: (v.serialize ++ next)) =
      match skipWs next with
      | 44 :: rest4 =>
        (parseMembers (parseValue (fuel + 1)) n rest4).map
          (fun r => ((k, v.toJValue) :: r.1, r.2))
      | 125 :: rest4 => some ([(k, v.toJValue)], rest4)
      | _ => none := by
  rw [parseMembers_succ]
  have : quoteJSONString k ++ 58 :: (v.serialize ++ next) =
      34 :: (quoteBody k ++ 34 :: 58 :: (v.serialize ++ next)) := by
    simp [quoteJSONString]
  rw [this, skipWs_cons _ _ (by decide)]
  simp only [parseStringBody_quoteBody]
  rw [skipWs_cons _ _ (by decide)]
  simp only [parseValue_serialize]

theorem parseMembers_serialize (fuel : Nat) (ms : List (JSString × Prim)) :
    ∀ (n : Nat) (tail : List Nat), ms ≠ [] → ms.length ≤ n →
      parseMembers (parseValue (fuel + 1)) n (serializeMembers ms ++ 125 :: tail) =
        some (ms.map (fun m => (m.1, m.2.toJValue)), tail) := by
  induction ms with
  | nil => intro n tail h; exact absurd rfl h
  | cons m rest ih =>
    intro n tail _ hn
    obtain ⟨k, v⟩ := m
    cases n with
    | zero => simp at hn
    | succ n =>
      have hn2 : rest.length ≤ n := by simpa using hn
      cases rest with
      | nil =>
        have : serializeMembers [(k, v)] ++ 125 :: tail =
            quoteJSONString k ++ 58 :: (v.serialize ++ 125 :: tail) := by
          simp [serializeMembers]
        rw [this, parseMembers_member, skipWs_cons _ _ (by decide)]
        rfl
      | cons m2 rest2 =>
        have : serializeMembers ((k, v) :: m2 :: rest2) ++ 125 :: tail =
            quoteJSONString k ++ 58 ::
              (v.serialize ++ 44 :: (serializeMembers (m2 :: rest2) ++ 125 :: tail)) := by
          simp [serializeMembers]
        rw [this, parseMembers_member, skipWs_cons _ _ (by decide)]
        simp only
        rw [ih n tail (by simp) hn2]
        rfl

theorem length_le_serializeMembers (ms : List (JSString × Prim)) :
    ms.length ≤ (serializeMembers ms).length := by
  induction ms with
  | nil => simp
  | cons m rest ih =>
    obtain ⟨k, v⟩ := m
    cases rest with
    | nil => simp [serializeMembers, quoteJSONString]
    | cons m2 rest2 =>
      simp only [serializeMembers, quoteJSONString, List.length_cons, List.length_append] at ih ⊢
      omega

/-- The stringified object parses back to the object built from its members. -/
theorem JSON_parse_stringify (ps : List (JSString × Prim)) :
    JSON_parse (JSON_stringify ps) =
      .ok (JValue.obj (mkObject (ps.map (fun m => (m.1, m.2.toJValue))))) := by
  cases ps with
  | nil => decide
  | cons m rest =>
    have hlen := length_le_serializeMembers (m :: rest)
    have hm := parseMembers_serialize (serializeMembers (m :: rest) ++ [125]).length (m :: rest)
      ((serializeMembers (m :: rest) ++ [125]).length + 1) [] (by simp)
      (by simp only [List.length_append]; omega)
    obtain ⟨k, v⟩ := m
    have hhead : ∃ body, serializeMembers ((k, v) :: rest) ++ [125] = 34 :: body := by
      cases rest with
      | nil => exact ⟨_, by simp [serializeMembers, quoteJSONString]; rfl⟩
      | cons m2 rest2 => exact ⟨_, by simp [serializeMembers, quoteJSONString]; rfl⟩
    obtain ⟨body, hbody⟩ := hhead
    unfold JSON_parse
    have hp : parseValue ((JSON_stringify ((k, v) :: rest)).length + 1)
        (JSON_stringify ((k, v) :: rest)) =
        some (JValue.obj (mkObject (((k, v) :: rest).map (fun m => (m.1, m.2.toJValue)))), []) := by
      have hs : JSON_stringify ((k, v) :: rest) =
          123 :: (serializeMembers ((k, v) :: rest) ++ [125]) := rfl
      have hfuel : (JSON_stringify ((k, v) :: rest)).length =
          (serializeMembers ((k, v) :: rest) ++ [125]).length + 1 := rfl
      rw [hfuel, parseValue_succ, hs, skipWs_cons _ _ (by decide)]
      simp only [if_true]
      rw [hbody, skipWs_cons _ _ (by decide)]
      simp only
      rw [← hbody, hm]
      rfl
    rw [hp]
    rfl

/-! ## Saving and applying -/

theorem mkObject_toObject (r : Settings) : mkObject r.toObject = r.toObject := by
  rfl

theorem spread_toObject (r : Settings) :
    spread defaultSettings.toObject (JValue.obj r.toObject) = r.toObject := by
  rfl

theorem getCurrentSettings_stringify (p : Page) (r : Settings)
    (h : p.storage = some (JSON_stringify r.toProps)) :
    getCurrentSettings p = .ok r.toObject := by
  have hparse : JSON_parse (JSON_stringify r.toProps) = .ok (JValue.obj r.toObject) := by
    rw [JSON_parse_stringify]
    exact congrArg (fun o => Except.ok (JValue.obj o)) (mkObject_toObject r)
  have hsaved := isSaved_of_parse_ok _ _ hparse
  simp only [getCurrentSettings, h, hsaved, hparse, if_true, spread_toObject]

theorem applySettings_obj (ps : List (JSString × JValue)) (p : Page) :
    applySettings (JValue.obj ps) p =
      .ok (applyAutoRefresh (lookup (js "autoRefresh") ps)
        (applyAnimations (lookup (js "animations") ps)
          (applyDarkMode (lookup (js "darkMode") ps) p))) := by
  rfl

theorem applyDarkMode_frame (d : Option JValue) (p : Page) :
    (applyDarkMode d p).storage = p.storage ∧ (applyDarkMode d p).console = p.console ∧
    (applyDarkMode d p).settingsModals = p.settingsModals ∧
    (applyDarkMode d p).region = p.region ∧ (applyDarkMode d p).timers = p.timers ∧
    (applyDarkMode d p).now = p.now ∧ (applyDarkMode d p).nextNode = p.nextNode := by
  unfold applyDarkMode
  split <;> simp

theorem applyAnimations_frame (a : Option JValue) (p : Page) :
    (applyAnimations a p).storage = p.storage ∧ (applyAnimations a p).console = p.console ∧
    (applyAnimations a p).settingsModals = p.settingsModals ∧
    (applyAnimations a p).region = p.region ∧ (applyAnimations a p).timers = p.timers ∧
    (applyAnimations a p).now = p.now ∧ (applyAnimations a p).nextNode = p.nextNode := by
  unfold applyAnimations
  split <;> simp

theorem applyAutoRefresh_frame (a : Option JValue) (p : Page) :
    (applyAutoRefresh a p).storage = p.storage ∧
    (applyAutoRefresh a p).bodyClasses = p.bodyClasses ∧
    (applyAutoRefresh a p).settingsModals = p.settingsModals ∧
    (applyAutoRefresh a p).region = p.region ∧ (applyAutoRefresh a p).timers = p.timers ∧
    (applyAutoRefresh a p).now = p.now ∧ (applyAutoRefresh a p).nextNode = p.nextNode := by
  unfold applyAutoRefresh
  split <;> simp

/-- C2: the round trip.  Whatever the page and its slot held, once the slot
holds `JSON.stringify` of a seven-field record `r`, `getCurrentSettings`
returns `r`; and `saveSettings`, run on a dialog whose controls hold `r`,
succeeds, leaves exactly that text in the slot, and a `getCurrentSettings`
right after it returns `r`. -/
theorem save_then_load (p : Page) (r : Settings) (others : List Settings) :
    getCurrentSettings { p with storage := some (JSON_stringify r.toProps) } = .ok r.toObject ∧
    ∃ q, saveSettings { p with settingsModals := r :: others } = .ok q ∧
      q.storage = some (JSON_stringify r.toProps) ∧
      getCurrentSettings q = .ok r.toObject := by
  refine ⟨getCurrentSettings_stringify _ r rfl, ?_⟩
  have hq : ∃ q, saveSettings { p with settingsModals := r :: others } = .ok q ∧
      q.storage = some (JSON_stringify r.toProps) := by
    simp only [saveSettings, applySettings_obj]
    refine ⟨_, rfl, ?_⟩
    simp only [showNotification]
    rw [(applyAutoRefresh_frame _ _).1, (applyAnimations_frame _ _).1,
      (applyDarkMode_frame _ _).1]
  obtain ⟨q, hq1, hq2⟩ := hq
  exact ⟨q, hq1, hq2, getCurrentSettings_stringify q r hq2⟩

theorem mem_classAdd (t a : String) (l : List String) :
    t ∈ classAdd a l ↔ t = a ∨ t ∈ l := by
  unfold classAdd
  split
  · constructor
    · intro h; exact Or.inr h
    · rintro (h | h)
      · subst h; assumption
      · exact h
  · simp [or_comm]

theorem mem_classRemove (t a : String) (l : List String) :
    t ∈ classRemove a l ↔ t ∈ l ∧ t ≠ a := by
  simp [classRemove]

theorem classAdd_of_mem (a : String) (l : List String) (h : a ∈ l) : classAdd a l = l := by
  simp [classAdd, h]

theorem classRemove_of_not_mem (a : String) (l : List String) (h : a ∉ l) :
    classRemove a l = l := by
  unfold classRemove
  rw [List.filter_eq_self]
  intro t ht
  have : t ≠ a := fun e => h (e ▸ ht)
  simpa using this

theorem filter_classAdd (q : String → Bool) (a : String) (l : List String) (h : q a = false) :
    (classAdd a l).filter q = l.filter q := by
  unfold classAdd
  split
  · rfl
  · simp [List.filter_append, h]

theorem filter_classRemove (q : String → Bool) (a : String) (l : List String)
    (h : q a = false) : (classRemove a l).filter q = l.filter q := by
  unfold classRemove
  rw [List.filter_filter]
  apply List.filter_congr
  intro t _
  by_cases hta : t = a
  · subst hta; simp [h]
  · simp [hta]

/-- The class list after `applySettings`, from the three property reads. -/
theorem bodyClasses_apply (d a r : Option JValue) (p : Page) :
    (applyAutoRefresh r (applyAnimations a (applyDarkMode d p))).bodyClasses =
      (if !truthy a then classAdd "no-animations" else classRemove "no-animations")
        ((if truthy d then classAdd "dark-mode" else classRemove "dark-mode") p.bodyClasses) := by
  rw [(applyAutoRefresh_frame _ _).2.1]
  unfold applyAnimations applyDarkMode
  cases truthy a <;> cases truthy d <;> rfl

theorem dark_mem_apply (d a r : Option JValue) (p : Page) :
    "dark-mode" ∈ (applyAutoRefresh r (applyAnimations a (applyDarkMode d p))).bodyClasses ↔
      truthy d = true := by
  rw [bodyClasses_apply]
  cases truthy a <;> cases truthy d <;>
    simp [mem_classAdd, mem_classRemove]

theorem noAnimations_mem_apply (d a r : Option JValue) (p : Page) :
    "no-animations" ∈ (applyAutoRefresh r (applyAnimations a (applyDarkMode d p))).bodyClasses ↔
      truthy a = false := by
  rw [bodyClasses_apply]
  cases truthy a <;> cases truthy d <;>
    simp [mem_classAdd, mem_classRemove]

/-- Applying the same three reads to the page they produced changes no class. -/
theorem bodyClasses_apply_twice (d a r : Option JValue) (p : Page) :
    (applyAutoRefresh r (applyAnimations a (applyDarkMode d
      (applyAutoRefresh r (applyAnimations a (applyDarkMode d p)))))).bodyClasses =
    (applyAutoRefresh r (applyAnimations a (applyDarkMode d p))).bodyClasses := by
  have hd := dark_mem_apply d a r p
  have ha := noAnimations_mem_apply d a r p
  rw [bodyClasses_apply d a r (applyAutoRefresh r (applyAnimations a (applyDarkMode d p)))]
  generalize (applyAutoRefresh r (applyAnimations a (applyDarkMode d p))).bodyClasses = l at hd ha ⊢
  cases hta : truthy a <;> cases htd : truthy d <;> simp only [hta, htd] at hd ha ⊢
  · have h1 : "dark-mode" ∉ l := by simpa using hd
    have h2 : "no-animations" ∈ l := by simpa using ha
    simp only [Bool.not_false, Bool.not_true, Bool.false_eq_true, if_true, if_false, reduceIte]
    rw [classRemove_of_not_mem _ _ h1, classAdd_of_mem _ _ h2]
  · have h1 : "dark-mode" ∈ l := by simpa using hd
    have h2 : "no-animations" ∈ l := by simpa using ha
    simp only [Bool.not_false, Bool.not_true, Bool.false_eq_true, if_true, if_false, reduceIte]
    rw [classAdd_of_mem _ _ h1, classAdd_of_mem _ _ h2]
  · have h1 : "dark-mode" ∉ l := by simpa using hd
    have h2 : "no-animations" ∉ l := by simpa using ha
    simp only [Bool.not_false, Bool.not_true, Bool.false_eq_true, if_true, if_false, reduceIte]
    rw [classRemove_of_not_mem _ _ h1]
    exact classRemove_of_not_mem _ _ h2
  · have h1 : "dark-mode" ∈ l := by simpa using hd
    have h2 : "no-animations" ∉ l := by simpa using ha
    simp only [Bool.not_false, Bool.not_true, Bool.false_eq_true, if_true, if_false, reduceIte]
    rw [classAdd_of_mem _ _ h1]
    exact classRemove_of_not_mem _ _ h2

/-- Any settings value that `applySettings` accepts can be applied again, and
the second application leaves the class list as the first one made it. -/
theorem applySettings_twice (settings : JValue) (p p1 : Page)
    (h : applySettings settings p = .ok p1) :
    ∃ p2, applySettings settings p1 = .ok p2 ∧ p2.bodyClasses = p1.bodyClasses := by
  cases settings with
  | obj ps =>
    rw [applySettings_obj] at h
    cases h
    exact ⟨_, applySettings_obj ps _, bodyClasses_apply_twice _ _ _ p⟩
  | null => simp [applySettings, getField] at h
  | bool b =>
    have e : ∀ q, applySettings (JValue.bool b) q =
        .ok (applyAutoRefresh none (applyAnimations none (applyDarkMode none q))) := fun _ => rfl
    rw [e] at h
    cases h
    exact ⟨_, e _, bodyClasses_apply_twice _ _ _ p⟩
  | num n =>
    have e : ∀ q, applySettings (JValue.num n) q =
        .ok (applyAutoRefresh none (applyAnimations none (applyDarkMode none q))) := fun _ => rfl
    rw [e] at h
    cases h
    exact ⟨_, e _, bodyClasses_apply_twice _ _ _ p⟩
  | str s =>
    have e : ∀ q, applySettings (JValue.str s) q =
        .ok (applyAutoRefresh none (applyAnimations none (applyDarkMode none q))) := fun _ => rfl
    rw [e] at h
    cases h
    exact ⟨_, e _, bodyClasses_apply_twice _ _ _ p⟩
  | arr xs =>
    have e : ∀ q, applySettings (JValue.arr xs) q =
        .ok (applyAutoRefresh none (applyAnimations none (applyDarkMode none q))) := fun _ => rfl
    rw [e] at h
    cases h
    exact ⟨_, e _, bodyClasses_apply_twice _ _ _ p⟩

/-- C4, at the stored object that sets `darkMode` alone: `loadSettings` applies
the parsed object as it is, so the missing `animations` reads as `undefined`
and `no-animations` is set; applying the record that `getCurrentSettings`
returns, where `animations` has its default `true`, does not set it. -/
theorem loadSettings_applies_raw_record :
    (loadSettings ⟨some (js "\x7b\"darkMode\":true\x7d"), [], [], [], [], [], 0, 0⟩).map
        Page.bodyClasses = .ok ["dark-mode", "no-animations"] ∧
    ((getCurrentSettings ⟨some (js "\x7b\"darkMode\":true\x7d"), [], [], [], [], [], 0, 0⟩).bind
        (fun r => applySettings (JValue.obj r)
          ⟨some (js "\x7b\"darkMode\":true\x7d"), [], [], [], [], [], 0, 0⟩)).map
        Page.bodyClasses = .ok ["dark-mode"] := by
  decide

/-- C5, refuted as stated: two calls of `enhanceChart` on a chart without
children leave two toolbars and two indicators on it. -/
theorem enhanceChart_twice_duplicates :
    countClass "chart-toolbar" (enhanceChart (enhanceChart ⟨"chart", "", []⟩)) = 2 ∧
    countClass "data-indicator" (enhanceChart (enhanceChart ⟨"chart", "", []⟩)) = 2 ∧
    ¬ (countClass "chart-toolbar" (enhanceChart (enhanceChart ⟨"chart", "", []⟩)) = 1 ∧
       countClass "data-indicator" (enhanceChart (enhanceChart ⟨"chart", "", []⟩)) = 1) := by
  decide

/-- C5, amended: every call of `enhanceChart` appends one new toolbar and one
new indicator after the children already there, whatever they are; so one
call adds one of each and two calls add two of each. -/
theorem enhanceChart_appends (chartDiv : ChartDiv) :
    (∃ toolbar indicator, toolbar.className = "chart-toolbar" ∧
      indicator.className = "data-indicator" ∧
      (enhanceChart chartDiv).children = chartDiv.children ++ [toolbar, indicator]) ∧
    countClass "chart-toolbar" (enhanceChart chartDiv) =
      countClass "chart-toolbar" chartDiv + 1 ∧
    countClass "data-indicator" (enhanceChart chartDiv) =
      countClass "data-indicator" chartDiv + 1 ∧
    countClass "chart-toolbar" (enhanceChart (enhanceChart chartDiv)) =
      countClass "chart-toolbar" chartDiv + 2 ∧
    countClass "data-indicator" (enhanceChart (enhanceChart chartDiv)) =
      countClass "data-indicator" chartDiv + 2 := by
  have hnew : ∃ toolbar indicator,
      (enhanceChart ⟨chartDiv.id, "", []⟩).children = [toolbar, indicator] ∧
      toolbar.className = "chart-toolbar" ∧ indicator.className = "data-indicator" :=
    ⟨_, _, rfl, rfl, rfl⟩
  obtain ⟨toolbar, indicator, hc, ht, hi⟩ := hnew
  have happ : (enhanceChart chartDiv).children =
      chartDiv.children ++ (enhanceChart ⟨chartDiv.id, "", []⟩).children := by
    simp [enhanceChart, addDataIndicator]
  refine ⟨⟨toolbar, indicator, ht, hi, by rw [happ, hc]⟩, ?_, ?_, ?_, ?_⟩
  all_goals
    simp [enhanceChart, addDataIndicator, countClass, List.filter_append, List.filter_cons]

/-- C6: for every settings record and every page, `applySettings` succeeds,
succeeds again on the page it produced, and the second run leaves the body
class list, hence the presence of `dark-mode` and of `no-animations`, as the
first run made it. -/
theorem applySettings_idempotent (r : Settings) (p : Page) :
    ∃ p1 p2, applySettings (JValue.obj r.toObject) p = .ok p1 ∧
      applySettings (JValue.obj r.toObject) p1 = .ok p2 ∧
      p2.bodyClasses = p1.bodyClasses ∧
      ("dark-mode" ∈ p2.bodyClasses ↔ "dark-mode" ∈ p1.bodyClasses) ∧
      ("no-animations" ∈ p2.bodyClasses ↔ "no-animations" ∈ p1.bodyClasses) := by
  have h1 := applySettings_obj r.toObject p
  obtain ⟨p2, h2, h3⟩ := applySettings_twice _ p _ h1
  exact ⟨_, p2, h1, h2, h3, by rw [h3], by rw [h3]⟩

/-- C7: after `applySettings` on a seven-field record, `dark-mode` is on the
body exactly when `darkMode` is true, `no-animations` exactly when
`animations` is false, every other class is there exactly as before and in
the same order, and the stored settings, the open dialogs, the notification
region, the timers and the clock are untouched. -/
theorem applySettings_frame (r : Settings) (p : Page) :
    ∃ p1, applySettings (JValue.obj r.toObject) p = .ok p1 ∧
      ("dark-mode" ∈ p1.bodyClasses ↔ r.darkMode = true) ∧
      ("no-animations" ∈ p1.bodyClasses ↔ r.animations = false) ∧
      (∀ t, t ≠ "dark-mode" → t ≠ "no-animations" →
        (t ∈ p1.bodyClasses ↔ t ∈ p.bodyClasses)) ∧
      p1.bodyClasses.filter (fun t => t ≠ "dark-mode" ∧ t ≠ "no-animations") =
        p.bodyClasses.filter (fun t => t ≠ "dark-mode" ∧ t ≠ "no-animations") ∧
      p1.storage = p.storage ∧ p1.settingsModals = p.settingsModals ∧
      p1.region = p.region ∧ p1.timers = p.timers ∧ p1.now = p.now := by
  refine ⟨_, applySettings_obj r.toObject p, ?_, ?_, ?_, ?_, ?_, ?_, ?_, ?_, ?_⟩
  · rw [dark_mem_apply]
    have hr : truthy (lookup (js "darkMode") r.toObject) = r.darkMode := rfl
    rw [hr]
  · rw [noAnimations_mem_apply]
    have hr : truthy (lookup (js "animations") r.toObject) = r.animations := rfl
    rw [hr]
  · intro t hd ha
    rw [bodyClasses_apply]
    cases truthy (lookup (js "animations") r.toObject) <;>
      cases truthy (lookup (js "darkMode") r.toObject) <;>
      simp [mem_classAdd, mem_classRemove, hd, ha]
  · rw [bodyClasses_apply]
    cases truthy (lookup (js "animations") r.toObject) <;>
      cases truthy (lookup (js "darkMode") r.toObject) <;>
      simp only [Bool.not_false, Bool.not_true, Bool.false_eq_true, if_true, if_false,
        reduceIte] <;>
      (first
        | rw [filter_classAdd _ _ _ (by decide), filter_classAdd _ _ _ (by decide)]
        | rw [filter_classAdd _ _ _ (by decide), filter_classRemove _ _ _ (by decide)]
        | rw [filter_classRemove _ _ _ (by decide), filter_classAdd _ _ _ (by decide)]
        | rw [filter_classRemove _ _ _ (by decide), filter_classRemove _ _ _ (by decide)])
  · rw [(applyAutoRefresh_frame _ _).1, (applyAnimations_frame _ _).1,
      (applyDarkMode_frame _ _).1]
  · rw [(applyAutoRefresh_frame _ _).2.2.1, (applyAnimations_frame _ _).2.2.1,
      (applyDarkMode_frame _ _).2.2.1]
  · rw [(applyAutoRefresh_frame _ _).2.2.2.1, (applyAnimations_frame _ _).2.2.2.1,
      (applyDarkMode_frame _ _).2.2.2.1]
  · rw [(applyAutoRefresh_frame _ _).2.2.2.2.1, (applyAnimations_frame _ _).2.2.2.2.1,
      (applyDarkMode_frame _ _).2.2.2.2.1]
  · rw [(applyAutoRefresh_frame _ _).2.2.2.2.2.1, (applyAnimations_frame _ _).2.2.2.2.2.1,
      (applyDarkMode_frame _ _).2.2.2.2.2.1]

/-- C9: a key press with Ctrl or Meta held and key `r`, `e` or `f` calls
`preventDefault` once and then exactly one action, `refreshData`, `exportData`
or `toggleFullscreen` respectively; any other key press calls nothing. -/
theorem onKeydown_dispatch (e : KeyEvent) :
    ((e.ctrlKey = true ∨ e.metaKey = true) ∧ e.key = "r" →
      onKeydown e = [.preventDefault, .refreshData]) ∧
    ((e.ctrlKey = true ∨ e.metaKey = true) ∧ e.key = "e" →
      onKeydown e = [.preventDefault, .exportData]) ∧
    ((e.ctrlKey = true ∨ e.metaKey = true) ∧ e.key = "f" →
      onKeydown e = [.preventDefault, .toggleFullscreen]) ∧
    (¬ ((e.ctrlKey = true ∨ e.metaKey = true) ∧ (e.key = "r" ∨ e.key = "e" ∨ e.key = "f")) →
      onKeydown e = []) := by
  obtain ⟨c, m, k⟩ := e
  refine ⟨?_, ?_, ?_, ?_⟩
  · rintro ⟨hmod, hk⟩
    have : (c || m) = true := by simpa using hmod
    simp only at hk
    subst hk
    simp [onKeydown, this]
  · rintro ⟨hmod, hk⟩
    have : (c || m) = true := by simpa using hmod
    simp only at hk
    subst hk
    simp [onKeydown, this]
  · rintro ⟨hmod, hk⟩
    have : (c || m) = true := by simpa using hmod
    simp only at hk
    subst hk
    simp [onKeydown, this]
  · intro h
    simp only [not_and_or, not_or] at h
    unfold onKeydown
    rcases h with h | h
    · have : (c || m) = false := by simpa using h
      simp [this]
    · simp [h.1, h.2.1, h.2.2]

/-! ## Notification lifetimes -/

theorem fadingOut_idem (x : Notification) : fadingOut (fadingOut x) = fadingOut x := rfl

theorem fade_step (b : Bool) (n : Nat) (x : Notification) :
    (if b = true then fadingOut (if x.node = n then fadingOut x else x)
      else if x.node = n then fadingOut x else x) =
    if (decide (Callback.fadeOut n = Callback.fadeOut x.node) || b) = true then fadingOut x
      else x := by
  by_cases hx : x.node = n
  · subst hx
    cases b <;> simp [fadingOut_idem]
  · have hne : ¬ n = x.node := fun e => hx e.symm
    cases b <;> simp [hx, hne]

theorem node_ite (b : Bool) (x : Notification) :
    (if b = true then fadingOut x else x).node = x.node := by
  cases b <;> rfl

theorem foldl_fire (due : List Timer) :
    ∀ q : Page,
      (due.foldl (fun q t => fire q t.callback) q).region =
        (q.region.map (fun x =>
          if due.any (fun t => t.callback = .fadeOut x.node) then fadingOut x else x)).filter
          (fun x => !due.any (fun t => t.callback = .remove x.node)) ∧
      (due.foldl (fun q t => fire q t.callback) q).timers = q.timers ++ spawned q.now due ∧
      (due.foldl (fun q t => fire q t.callback) q).now = q.now ∧
      (due.foldl (fun q t => fire q t.callback) q).nextNode = q.nextNode := by
  induction due with
  | nil => intro q; simp [spawned]
  | cons t ts ih =>
    intro q
    obtain ⟨d, c⟩ := t
    rw [List.foldl_cons]
    obtain ⟨h1, h2, h3, h4⟩ := ih (fire q c)
    rw [h1, h2, h3, h4]
    cases c with
    | fadeOut n =>
      refine ⟨?_, ?_, rfl, rfl⟩
      · simp only [fire, List.map_map, List.any_cons]
        congr 1
        apply List.map_congr_left
        intro x _
        simp only [Function.comp]
        have hnode : (if x.node = n then fadingOut x else x).node = x.node := by
          split <;> rfl
        rw [hnode]
        exact fade_step _ n x
      · simp [fire, spawned]
    | remove n =>
      refine ⟨?_, ?_, rfl, rfl⟩
      · simp only [fire, List.any_cons]
        rw [List.filter_map, List.filter_map, List.filter_filter]
        congr 1
        apply List.filter_congr
        intro x _
        simp only [Function.comp_apply, node_ite]
        by_cases hx : x.node = n
        · subst hx; simp
        · have hne : ¬ n = x.node := fun e => hx e.symm
          simp [hx, hne]
      · simp [fire, spawned]


theorem tick_fields (p : Page) :
    (tick p).region =
      (p.region.map (fun x =>
        if (p.timers.filter (fun t => t.due ≤ p.now + 1)).any
            (fun t => t.callback = .fadeOut x.node) then fadingOut x else x)).filter
        (fun x => !(p.timers.filter (fun t => t.due ≤ p.now + 1)).any
          (fun t => t.callback = .remove x.node)) ∧
    (tick p).timers = p.timers.filter (fun t => ¬ t.due ≤ p.now + 1) ++
      spawned (p.now + 1) (p.timers.filter (fun t => t.due ≤ p.now + 1)) ∧
    (tick p).now = p.now + 1 ∧ (tick p).nextNode = p.nextNode := by
  obtain ⟨h1, h2, h3, h4⟩ := foldl_fire (p.timers.filter (fun t => t.due ≤ p.now + 1))
    { p with now := p.now + 1, timers := p.timers.filter (fun t => ¬ t.due ≤ p.now + 1) }
  exact ⟨h1, h2, h3, h4⟩

theorem any_due (ts : List Timer) (n : Nat) (c : Callback) :
    (ts.filter (fun t => t.due ≤ n)).any (fun t => t.callback = c) =
      ((ts.filter (fun t => t.callback = c)).map Timer.due).any (fun d => d ≤ n) := by
  induction ts with
  | nil => rfl
  | cons t ts ih =>
    by_cases h1 : t.due ≤ n <;> by_cases h2 : t.callback = c <;>
      simp [List.filter_cons, h1, h2, ih]

theorem dues_pending (ts : List Timer) (n : Nat) (c : Callback) :
    ((ts.filter (fun t => ¬ t.due ≤ n)).filter (fun t => t.callback = c)).map Timer.due =
      ((ts.filter (fun t => t.callback = c)).map Timer.due).filter (fun d => ¬ d ≤ n) := by
  induction ts with
  | nil => rfl
  | cons t ts ih =>
    by_cases h1 : t.due ≤ n <;> by_cases h2 : t.callback = c <;>
      simp only [List.filter_cons, List.map_cons, h1, h2, not_true_eq_false, not_false_eq_true,
        decide_True, decide_False, if_true, if_false, reduceIte, Bool.false_eq_true, ih]

theorem fades_spawned (now : Nat) (ts : List Timer) (i : Nat) :
    (spawned now ts).filter (fun t => t.callback = .fadeOut i) = [] := by
  induction ts with
  | nil => rfl
  | cons t ts ih =>
    obtain ⟨d, c⟩ := t
    cases c <;> simp [spawned, List.filter_cons, ih]

theorem removes_spawned (now : Nat) (ts : List Timer) (n i : Nat) :
    ((spawned now (ts.filter (fun t => t.due ≤ n))).filter
        (fun t => t.callback = .remove i)).map Timer.due =
      (((ts.filter (fun t => t.callback = .fadeOut i)).map Timer.due).filter
        (fun d => d ≤ n)).map (fun _ => now + 300) := by
  induction ts with
  | nil => rfl
  | cons t ts ih =>
    obtain ⟨d, c⟩ := t
    by_cases h1 : d ≤ n
    · cases c with
      | fadeOut m =>
        by_cases h2 : m = i
        · subst h2; simp [spawned, List.filter_cons, h1, ih]
        · simp [spawned, List.filter_cons, h1, h2, ih]
      | remove m => simp [spawned, List.filter_cons, h1, ih]
    · cases c with
      | fadeOut m =>
        by_cases h2 : m = i
        · subst h2; simp [spawned, List.filter_cons, h1, ih]
        · simp [spawned, List.filter_cons, h1, h2, ih]
      | remove m => simp [spawned, List.filter_cons, h1, ih]

theorem any_region_step (region : List Notification) (f g : Nat → Bool) (i : Nat) :
    ((region.map (fun x => if f x.node then fadingOut x else x)).filter
        (fun x => !g x.node)).any (fun x => x.node = i) =
      (region.any (fun x => x.node = i) && !g i) := by
  induction region with
  | nil => rfl
  | cons x xs ih =>
    simp only [List.map_cons, List.filter_cons, node_ite, List.any_cons]
    by_cases hx : x.node = i
    · subst hx
      cases hg : g x.node <;> simp [ih, hg, node_ite]
    · cases hg : g x.node <;> simp [ih, hg, hx, node_ite]

theorem life_tick (i : Nat) (p : Page) : life i (tick p) = (life i p).tick := by
  obtain ⟨h1, h2, h3, _⟩ := tick_fields p
  simp only [life, Life.tick, inRegion, fadeDues, removeDues, h1, h2, h3, Life.mk.injEq]
  refine ⟨?_, ?_, ?_, trivial⟩
  · rw [any_region_step p.region
      (fun n => (p.timers.filter (fun t => t.due ≤ p.now + 1)).any
        (fun t => t.callback = .fadeOut n))
      (fun n => (p.timers.filter (fun t => t.due ≤ p.now + 1)).any
        (fun t => t.callback = .remove n)) i]
    simp only [any_due]
  · rw [List.filter_append, fades_spawned, List.append_nil, dues_pending]
  · rw [List.filter_append, List.map_append, dues_pending, removes_spawned]


theorem advance_eq_iterate (d : Nat) (p : Page) : advance d p = tick^[d] p := by
  induction d generalizing p with
  | zero => rfl
  | succ d ih => rw [advance, ih, Function.iterate_succ_apply]

theorem advance_succ_last (d : Nat) (p : Page) : advance (d + 1) p = tick (advance d p) := by
  rw [advance_eq_iterate, advance_eq_iterate, Function.iterate_succ_apply']

theorem life_advance (i d : Nat) (p : Page) :
    life i (advance d p) = Life.tick^[d] (life i p) := by
  induction d with
  | zero => rfl
  | succ d ih => rw [advance_succ_last, life_tick, ih, Function.iterate_succ_apply']

theorem nextNode_advance (d : Nat) (p : Page) : (advance d p).nextNode = p.nextNode := by
  induction d with
  | zero => rfl
  | succ d ih => rw [advance_succ_last, (tick_fields _).2.2.2, ih]

theorem now_advance (d : Nat) (p : Page) : (advance d p).now = p.now + d := by
  induction d with
  | zero => rfl
  | succ d ih => rw [advance_succ_last, (tick_fields _).2.2.1, ih]; omega

/-- The life of an element from its insertion at time `T`: in the container
with its fade-out timer for 3000 ms, in the container with its removal timer
for 300 ms more, and gone with no timer left from then on. -/
theorem life_closed (T w : Nat) :
    Life.tick^[w] ⟨true, [T + 3000], [], T⟩ =
      if w < 3000 then ⟨true, [T + 3000], [], T + w⟩
      else if w < 3300 then ⟨true, [], [T + 3300], T + w⟩
      else ⟨false, [], [], T + w⟩ := by
  induction w with
  | zero => simp
  | succ w ih =>
    rw [Function.iterate_succ_apply', ih]
    by_cases h1 : w + 1 < 3000
    · have h0 : w < 3000 := by omega
      have h2 : ¬ (T + 3000 ≤ T + w + 1) := by omega
      simp [h0, h1, Life.tick, h2, Nat.add_assoc]
    · by_cases h3 : w < 3000
      · obtain rfl : w = 2999 := by omega
        simp [Life.tick, Nat.add_assoc]
      · by_cases h7 : w + 1 < 3300
        · have h8 : w < 3300 := by omega
          have h9 : ¬ (T + 3300 ≤ T + w + 1) := by omega
          simp [h1, h3, h7, h8, Life.tick, h9, Nat.add_assoc]
          omega
        · by_cases h10 : w < 3300
          · obtain rfl : w = 3299 := by omega
            simp [Life.tick, Nat.add_assoc]
          · simp [h1, h3, h7, h10, Life.tick, Nat.add_assoc]


theorem life_showNotification_other (i : Nat) (message type : String) (p : Page)
    (h : i ≠ p.nextNode) : life i (showNotification message type p) = life i p := by
  have h2 : ¬ p.nextNode = i := fun e => h e.symm
  simp [life, showNotification, inRegion, fadeDues, removeDues, List.filter_append,
    List.filter_cons, h2]

theorem dues_eq_nil_of_fresh (p : Page) (hf : Fresh p) (c : Callback)
    (hc : c.node = p.nextNode) :
    (p.timers.filter (fun t => t.callback = c)).map Timer.due = [] := by
  rw [List.map_eq_nil_iff, List.filter_eq_nil_iff]
  intro t ht
  have := hf t ht
  have hne : t.callback ≠ c := by
    intro e
    rw [e, hc] at this
    exact Nat.lt_irrefl _ this
  simpa using hne

theorem life_showNotification_new (message type : String) (p : Page) (hf : Fresh p) :
    life p.nextNode (showNotification message type p) =
      ⟨true, [p.now + 3000], [], p.now⟩ := by
  have h1 := dues_eq_nil_of_fresh p hf (.fadeOut p.nextNode) rfl
  have h2 := dues_eq_nil_of_fresh p hf (.remove p.nextNode) rfl
  simp only [life, showNotification, inRegion, fadeDues, removeDues, List.filter_append,
    List.map_append, h1, h2, Life.mk.injEq]
  simp [List.filter_cons]

theorem fresh_showNotification (message type : String) (p : Page) (hf : Fresh p) :
    Fresh (showNotification message type p) := by
  intro t ht
  simp only [showNotification, List.mem_append, List.mem_singleton] at ht ⊢
  rcases ht with ht | ht
  · exact Nat.lt_succ_of_lt (hf t ht)
  · subst ht
    exact Nat.lt_succ_self _

theorem node_of_mem_spawned (now : Nat) (ts : List Timer) (t : Timer)
    (h : t ∈ spawned now ts) : ∃ s ∈ ts, s.callback.node = t.callback.node := by
  induction ts with
  | nil => simp [spawned] at h
  | cons s ss ih =>
    obtain ⟨d, c⟩ := s
    cases c with
    | fadeOut n =>
      simp only [spawned, List.mem_cons] at h
      rcases h with h | h
      · subst h
        exact ⟨_, List.mem_cons_self _ _, rfl⟩
      · obtain ⟨s, hs, he⟩ := ih h
        exact ⟨s, List.mem_cons_of_mem _ hs, he⟩
    | remove n =>
      simp only [spawned] at h
      obtain ⟨s, hs, he⟩ := ih h
      exact ⟨s, List.mem_cons_of_mem _ hs, he⟩

theorem fresh_tick (p : Page) (hf : Fresh p) : Fresh (tick p) := by
  obtain ⟨_, h2, _, h4⟩ := tick_fields p
  intro t ht
  rw [h2] at ht
  rw [h4]
  rcases List.mem_append.mp ht with ht | ht
  · exact hf t (List.mem_of_mem_filter ht)
  · obtain ⟨s, hs, he⟩ := node_of_mem_spawned _ _ t ht
    rw [← he]
    exact hf s (List.mem_of_mem_filter hs)

theorem fresh_advance (d : Nat) (p : Page) (hf : Fresh p) : Fresh (advance d p) := by
  induction d with
  | zero => exact hf
  | succ d ih => rw [advance_succ_last]; exact fresh_tick _ ih

theorem fresh_run (ops : List Op) : ∀ p : Page, Fresh p → Fresh (run ops p) := by
  induction ops with
  | nil => intro p hf; exact hf
  | cons op ops ih =>
    intro p hf
    cases op with
    | post message type => exact ih _ (fresh_showNotification message type p hf)
    | wait ms => exact ih _ (fresh_advance ms p hf)

theorem life_run (i : Nat) (ops : List Op) :
    ∀ p : Page, i < p.nextNode → life i (run ops p) = Life.tick^[waited ops] (life i p) := by
  induction ops with
  | nil => intro p _; rfl
  | cons op ops ih =>
    intro p hi
    cases op with
    | post message type =>
      have hlt : i < (showNotification message type p).nextNode := Nat.lt_succ_of_lt hi
      rw [run, ih _ hlt, life_showNotification_other i message type p (Nat.ne_of_lt hi)]
      rfl
    | wait ms =>
      have hlt : i < (advance ms p).nextNode := by rw [nextNode_advance]; exact hi
      rw [run, ih _ hlt, life_advance, waited, Nat.add_comm, Function.iterate_add_apply]

/-- A notification posted on a page lives for exactly 3300 ms of the session
that follows, whatever else is posted before, with or after it. -/
theorem inRegion_run (p : Page) (hf : Fresh p) (message type : String) (ops : List Op) :
    inRegion p.nextNode (run ops (showNotification message type p)) =
      decide (waited ops < 3300) := by
  have h := life_run p.nextNode ops (showNotification message type p) (Nat.lt_succ_self _)
  rw [life_showNotification_new message type p hf, life_closed] at h
  have hp := congrArg Life.present h
  simp only [life] at hp
  rw [hp]
  by_cases h1 : waited ops < 3000
  · have : waited ops < 3300 := by omega
    simp [h1, this]
  · by_cases h2 : waited ops < 3300 <;> simp [h1, h2]


theorem tick_region_life (s : Page) :
    (tick s).region =
      (s.region.filter (fun x => !(life x.node s).removes.any (fun d => d ≤ s.now + 1))).map
        (fun x => if (life x.node s).fades.any (fun d => d ≤ s.now + 1) then fadingOut x
          else x) := by
  rw [(tick_fields s).1, List.filter_map]
  simp only [life, fadeDues, removeDues, any_due]
  congr 1
  apply List.filter_congr
  intro x _
  simp only [Function.comp_apply, node_ite]

theorem tick_region_of_lives (s : Page) (l : Life)
    (h : ∀ x ∈ s.region, life x.node s = l) :
    (tick s).region =
      (s.region.filter (fun _ => !l.removes.any (fun d => d ≤ s.now + 1))).map
        (fun x => if l.fades.any (fun d => d ≤ s.now + 1) then fadingOut x else x) := by
  rw [tick_region_life]
  have hf : s.region.filter (fun x => !(life x.node s).removes.any (fun d => d ≤ s.now + 1)) =
      s.region.filter (fun _ => !l.removes.any (fun d => d ≤ s.now + 1)) := by
    apply List.filter_congr
    intro x hx
    rw [h x hx]
  rw [hf]
  apply List.map_congr_left
  intro x hx
  rw [h x (List.mem_of_mem_filter hx)]


theorem region_advance (q : Page) (H : JustPosted q) (d : Nat) :
    (advance d q).region =
      if d < 3000 then q.region
      else if d < 3300 then q.region.map fadingOut
      else [] := by
  induction d with
  | zero => simp [advance]
  | succ d ih =>
    have hl : ∀ x ∈ (advance d q).region, life x.node (advance d q) =
        Life.tick^[d] ⟨true, [q.now + 3000], [], q.now⟩ := by
      intro x hx
      have hy : ∃ y ∈ q.region, x.node = y.node := by
        rw [ih] at hx
        split_ifs at hx
        · exact ⟨x, hx, rfl⟩
        · obtain ⟨y, hy, he⟩ := List.mem_map.mp hx
          exact ⟨y, hy, by rw [← he]; rfl⟩
        · simp at hx
      obtain ⟨y, hy, he⟩ := hy
      rw [he, life_advance, H y hy]
    rw [advance_succ_last, tick_region_of_lives _ _ hl, now_advance, life_closed, ih]
    by_cases h1 : d + 1 < 3000
    · have h0 : d < 3000 := by omega
      have h2 : ¬ (q.now + 3000 ≤ q.now + d + 1) := by omega
      simp [h0, h1, h2]
    · by_cases h3 : d < 3000
      · obtain rfl : d = 2999 := by omega
        simp
      · by_cases h7 : d + 1 < 3300
        · have h8 : d < 3300 := by omega
          have h9 : ¬ (q.now + 3300 ≤ q.now + d + 1) := by omega
          simp [h1, h3, h7, h8, h9]
        · by_cases h10 : d < 3300
          · obtain rfl : d = 3299 := by omega
            simp
          · simp [h1, h3, h7, h10]

theorem region_postAll (msgs : List (String × String)) :
    ∀ p : Page, (postAll msgs p).region.map (fun x => (x.textContent, x.className)) =
      p.region.map (fun x => (x.textContent, x.className)) ++
        msgs.map (fun m => (m.1, "notification notification-" ++ m.2)) := by
  induction msgs with
  | nil => intro p; simp [postAll]
  | cons m ms ih =>
    intro p
    obtain ⟨message, type⟩ := m
    rw [postAll, ih]
    simp [showNotification]

theorem justPosted_postAll (msgs : List (String × String)) :
    ∀ p : Page, Fresh p → (∀ x ∈ p.region, x.node < p.nextNode) → JustPosted p →
      JustPosted (postAll msgs p) := by
  induction msgs with
  | nil => intro p _ _ h; exact h
  | cons m ms ih =>
    intro p hf hlt hj
    obtain ⟨message, type⟩ := m
    rw [postAll]
    apply ih _ (fresh_showNotification message type p hf)
    · intro x hx
      simp only [showNotification, List.mem_append, List.mem_singleton] at hx ⊢
      rcases hx with hx | hx
      · exact Nat.lt_succ_of_lt (hlt x hx)
      · subst hx
        exact Nat.lt_succ_self _
    · intro x hx
      have hnow : (showNotification message type p).now = p.now := rfl
      rw [hnow]
      have hx2 : x ∈ p.region ∨ x.node = p.nextNode := by
        simp only [showNotification, List.mem_append, List.mem_singleton] at hx
        rcases hx with hx | hx
        · exact Or.inl hx
        · subst hx
          exact Or.inr rfl
      rcases hx2 with hx2 | hx2
      · rw [life_showNotification_other _ _ _ _ (Nat.ne_of_lt (hlt x hx2))]
        exact hj x hx2
      · rw [hx2]
        exact life_showNotification_new message type p hf


/-- C8: on a page whose notification container is empty, after `N` calls of
`showNotification` made at one instant the container holds exactly those `N`
notifications in posting order; all of them are still there at every moment
before 3300 ms have passed (from 3000 ms on with the exit animation started),
and none is left once 3300 ms have passed.  Independently of the others, a
notification posted at any point of any session of posts and waits is in the
container exactly while less than 3300 ms have passed since its own
insertion. -/
theorem notifications_lifetime (p : Page) (hr : p.region = []) (hf : Fresh p)
    (msgs : List (String × String)) :
    (postAll msgs p).region.map (fun x => (x.textContent, x.className)) =
      msgs.map (fun m => (m.1, "notification notification-" ++ m.2)) ∧
    (postAll msgs p).region.length = msgs.length ∧
    (∀ d, d < 3000 → (advance d (postAll msgs p)).region = (postAll msgs p).region) ∧
    (∀ d, 3000 ≤ d → d < 3300 →
      (advance d (postAll msgs p)).region = (postAll msgs p).region.map fadingOut) ∧
    (∀ d, 3300 ≤ d → (advance d (postAll msgs p)).region = []) ∧
    (∀ ops0 message type ops,
      inRegion (run ops0 p).nextNode
          (run ops (showNotification message type (run ops0 p))) =
        decide (waited ops < 3300)) := by
  have hmap := region_postAll msgs p
  rw [hr] at hmap
  simp only [List.map_nil, List.nil_append] at hmap
  have hj : JustPosted (postAll msgs p) :=
    justPosted_postAll msgs p hf (by rw [hr]; intro x hx; cases hx)
      (by intro x hx; rw [hr] at hx; cases hx)
  refine ⟨hmap, ?_, ?_, ?_, ?_, ?_⟩
  · have := congrArg List.length hmap
    simpa using this
  · intro d hd
    rw [region_advance _ hj, if_pos hd]
  · intro d h1 h2
    rw [region_advance _ hj, if_neg (by omega), if_pos h2]
  · intro d hd
    rw [region_advance _ hj, if_neg (by omega), if_neg (by omega)]
  · intro ops0 message type ops
    exact inRegion_run _ (fresh_run ops0 p hf) message type ops

/-- C8, for two notifications posted on an empty page: both are there at
3299 ms and none at 3300 ms. -/
theorem notifications_lifetime_witness :
    (advance 3299 (postAll [("saved", "success"), ("failed", "error")]
      ⟨none, [], [], [], [], [], 0, 0⟩)).region =
      (postAll [("saved", "success"), ("failed", "error")]
        ⟨none, [], [], [], [], [], 0, 0⟩).region.map fadingOut ∧
    (postAll [("saved", "success"), ("failed", "error")]
      ⟨none, [], [], [], [], [], 0, 0⟩).region.length = 2 ∧
    (advance 3300 (postAll [("saved", "success"), ("failed", "error")]
      ⟨none, [], [], [], [], [], 0, 0⟩)).region = [] :=
  have h := notifications_lifetime ⟨none, [], [], [], [], [], 0, 0⟩ rfl
    (fun _ ht => absurd ht (List.not_mem_nil _)) [("saved", "success"), ("failed", "error")]
  ⟨h.2.2.2.1 3299 (by decide) (by decide), h.2.1, h.2.2.2.2.1 3300 (by decide)⟩

/-! ## What a save leaves in the slot -/

theorem saveSettings_storage (p : Page) (r : Settings) (others : List Settings) :
    ∃ q, saveSettings { p with settingsModals := r :: others } = .ok q ∧
      q.storage = some (JSON_stringify r.toProps) := by
  simp only [saveSettings, applySettings_obj]
  refine ⟨_, rfl, ?_⟩
  simp only [showNotification]
  rw [(applyAutoRefresh_frame _ _).1, (applyAnimations_frame _ _).1,
    (applyDarkMode_frame _ _).1]

theorem keys_toObject (r : Settings) : keys r.toObject = fieldNames := by
  rfl

theorem getCurrentSettings_keeps_field (p : Page) (text : JSString)
    (ps : List (JSString × JValue)) (k : JSString) (v : JValue)
    (hslot : p.storage = some text) (hparse : JSON_parse text = .ok (JValue.obj ps))
    (hk : lookup k ps = some v) :
    ∃ o, getCurrentSettings p = .ok o ∧ lookup k o = some v := by
  have hnd := JSON_parse_obj_nodup text ps hparse
  have hsaved := isSaved_of_parse_ok text _ hparse
  refine ⟨spread defaultSettings.toObject (JValue.obj ps), ?_, ?_⟩
  · simp only [getCurrentSettings, hslot, hsaved, hparse, if_true]
  · have hl : lookup k (spread defaultSettings.toObject (JValue.obj ps)) =
        match lookup k ps with
        | some v => some v
        | none => lookup k defaultSettings.toObject :=
      lookup_foldl_setProp k ps defaultSettings.toObject hnd
    rw [hl, hk]

/-- C11: whatever the slot held before, and whatever the seven controls of the
settings dialog hold, `saveSettings` succeeds and leaves in the slot the text
`JSON.stringify` gives for the object built from the controls alone; that text
parses to an object whose keys are exactly the seven field names, in source
order, and a `getCurrentSettings` after the save returns that object, so it
has no field outside the seven.  Before the save, a field of a stored object
is carried into what `getCurrentSettings` returns, also when it is not one of
the seven: such a field is tolerated on load and gone after the save. -/
theorem saveSettings_writes_canonical (p : Page) (r : Settings) (others : List Settings) :
    (∀ text ps k v, p.storage = some text → JSON_parse text = .ok (JValue.obj ps) →
      lookup k ps = some v →
      ∃ o, getCurrentSettings { p with settingsModals := r :: others } = .ok o ∧
        lookup k o = some v) ∧
    ∃ q o, saveSettings { p with settingsModals := r :: others } = .ok q ∧
      q.storage = some (JSON_stringify r.toProps) ∧
      JSON_parse (JSON_stringify r.toProps) = .ok (JValue.obj o) ∧
      keys o = fieldNames ∧
      getCurrentSettings q = .ok o ∧
      (∀ k, k ∉ fieldNames → lookup k o = none) := by
  constructor
  · intro text ps k v hslot hparse hk
    exact getCurrentSettings_keeps_field _ text ps k v hslot hparse hk
  · obtain ⟨q, hq1, hq2⟩ := saveSettings_storage p r others
    have hparse : JSON_parse (JSON_stringify r.toProps) = .ok (JValue.obj r.toObject) := by
      rw [JSON_parse_stringify]
      exact congrArg (fun o => Except.ok (JValue.obj o)) (mkObject_toObject r)
    refine ⟨q, r.toObject, hq1, hq2, hparse, keys_toObject r,
      getCurrentSettings_stringify q r hq2, ?_⟩
    intro k hk
    apply lookup_eq_none_of_not_mem
    rw [keys_toObject]
    exact hk

/-- C11, at a slot that holds `darkMode` and an unknown field `legacy`, saved
over with the default controls: `legacy` is returned by `getCurrentSettings`
before the save, and after it the slot holds the seven canonical fields only
and `legacy` is gone. -/
theorem saveSettings_writes_canonical_witness :
    (∃ o, getCurrentSettings
        ⟨some (js "\x7b\"darkMode\":true,\"legacy\":\"x\"\x7d"), [], [], [defaultSettings], [], [],
          0, 0⟩ = .ok o ∧
      lookup (js "legacy") o = some (JValue.str (js "x"))) ∧
    ∃ q o, saveSettings
        ⟨some (js "\x7b\"darkMode\":true,\"legacy\":\"x\"\x7d"), [], [], [defaultSettings], [], [],
          0, 0⟩ = .ok q ∧
      q.storage = some (JSON_stringify defaultSettings.toProps) ∧
      JSON_parse (JSON_stringify defaultSettings.toProps) = .ok (JValue.obj o) ∧
      keys o = fieldNames ∧
      getCurrentSettings q = .ok o ∧
      lookup (js "legacy") o = none :=
  have h := saveSettings_writes_canonical
    ⟨some (js "\x7b\"darkMode\":true,\"legacy\":\"x\"\x7d"), [], [], [], [], [], 0, 0⟩
    defaultSettings []
  ⟨h.1 (js "\x7b\"darkMode\":true,\"legacy\":\"x\"\x7d")
      [(js "darkMode", JValue.bool true), (js "legacy", JValue.str (js "x"))]
      (js "legacy") (JValue.str (js "x")) rfl (by decide) (by decide),
    h.2.imp (fun _ hq => hq.imp (fun _ ho =>
      ⟨ho.1, ho.2.1, ho.2.2.1, ho.2.2.2.1, ho.2.2.2.2.1, ho.2.2.2.2.2 (js "legacy") (by decide)⟩))⟩

end Dashboard
